import Mathlib

/-!
Verification development for `acquisitions_alerts.py`: a shallow embedding of
the change-detection and dispatch pipeline (identity keys, denylist filter,
state store, Telegram notifier, the generic and direct runners, and the
bedrijventekoop sequential-ID fallback), together with theorems settling the
specification claims.

Python strings are modelled as Lean `String`s; all computation happens on
`String.data : List Char`, i.e. on the sequence of Unicode code points, which
matches CPython `str` semantics.  Machine integers do not occur (Python ints
are unbounded); SHA-256 arithmetic is done on `Nat` with explicit `% 2^32`.
-/

/-- Python code-point comparison `a <= b` on strings (lexicographic on code
points), used by `new_items.sort(key=lambda x: x.url)`. -/
def charListLe : List Char → List Char → Bool
  | [], _ => true
  | _ :: _, [] => false
  | a :: as, b :: bs =>
    if a.toNat < b.toNat then true
    else if b.toNat < a.toNat then false
    else charListLe as bs

/-- Python whitespace test used by `str.strip()` / `\s` (ASCII part). -/
def isPySpace (c : Char) : Bool :=
  c.toNat = 32 || c.toNat = 9 || c.toNat = 10 || c.toNat = 13 ||
  c.toNat = 11 || c.toNat = 12

/-- Python `str.strip()`: drop leading and trailing whitespace. -/
def trimChars (cs : List Char) : List Char :=
  ((cs.dropWhile isPySpace).reverse.dropWhile isPySpace).reverse

/-- Collapse every maximal run of whitespace into a single space
(the `re.sub(r"\s+", " ", ...)` part of `text_clean`); the flag records
whether the previous character was whitespace. -/
def collapseWsAux : Bool → List Char → List Char
  | _, [] => []
  | inRun, c :: rest =>
    if isPySpace c then
      if inRun then collapseWsAux true rest
      else ' ' :: collapseWsAux true rest
    else c :: collapseWsAux false rest

def collapseWs (cs : List Char) : List Char := collapseWsAux false cs

/-- `text_clean(s) = re.sub(r"\s+", " ", (s or "").strip())`. -/
def text_clean (s : String) : String :=
  String.mk (collapseWs (trimChars s.data))

/-- NFKD decomposition, restricted to the precomposed Latin letters that the
scraped sources emit (the repertoire relevant to `FORBIDDEN_WORDS` matching);
other code points decompose to themselves. -/
def nfkdDecompose (c : Char) : List Char :=
  let acc : Nat → Char := Char.ofNat
  match c with
  | 'À' => ['A', acc 0x300] | 'Á' => ['A', acc 0x301] | 'Â' => ['A', acc 0x302]
  | 'Ã' => ['A', acc 0x303] | 'Ä' => ['A', acc 0x308] | 'Å' => ['A', acc 0x30A]
  | 'Ç' => ['C', acc 0x327]
  | 'È' => ['E', acc 0x300] | 'É' => ['E', acc 0x301] | 'Ê' => ['E', acc 0x302]
  | 'Ë' => ['E', acc 0x308]
  | 'Ì' => ['I', acc 0x300] | 'Í' => ['I', acc 0x301] | 'Î' => ['I', acc 0x302]
  | 'Ï' => ['I', acc 0x308]
  | 'Ñ' => ['N', acc 0x303]
  | 'Ò' => ['O', acc 0x300] | 'Ó' => ['O', acc 0x301] | 'Ô' => ['O', acc 0x302]
  | 'Õ' => ['O', acc 0x303] | 'Ö' => ['O', acc 0x308]
  | 'Ù' => ['U', acc 0x300] | 'Ú' => ['U', acc 0x301] | 'Û' => ['U', acc 0x302]
  | 'Ü' => ['U', acc 0x308]
  | 'Ý' => ['Y', acc 0x301]
  | 'à' => ['a', acc 0x300] | 'á' => ['a', acc 0x301] | 'â' => ['a', acc 0x302]
  | 'ã' => ['a', acc 0x303] | 'ä' => ['a', acc 0x308] | 'å' => ['a', acc 0x30A]
  | 'ç' => ['c', acc 0x327]
  | 'è' => ['e', acc 0x300] | 'é' => ['e', acc 0x301] | 'ê' => ['e', acc 0x302]
  | 'ë' => ['e', acc 0x308]
  | 'ì' => ['i', acc 0x300] | 'í' => ['i', acc 0x301] | 'î' => ['i', acc 0x302]
  | 'ï' => ['i', acc 0x308]
  | 'ñ' => ['n', acc 0x303]
  | 'ò' => ['o', acc 0x300] | 'ó' => ['o', acc 0x301] | 'ô' => ['o', acc 0x302]
  | 'õ' => ['o', acc 0x303] | 'ö' => ['o', acc 0x308]
  | 'ù' => ['u', acc 0x300] | 'ú' => ['u', acc 0x301] | 'û' => ['u', acc 0x302]
  | 'ü' => ['u', acc 0x308]
  | 'ý' => ['y', acc 0x301] | 'ÿ' => ['y', acc 0x308]
  | c => [c]

/-- Unicode combining marks (the block U+0300..U+036F suffices for the
decompositions above); `unicodedata.combining(ch)` is nonzero on these. -/
def isCombiningMark (c : Char) : Bool :=
  0x300 ≤ c.toNat && c.toNat ≤ 0x36F

/-- ASCII lowercasing (`str.lower()`; after decomposition the letters the
filter compares are ASCII). -/
def pyLowerChar (c : Char) : Char := c.toLower

/-- `norm_cmp`: NFKD-normalize, drop combining marks, lowercase, strip. -/
def norm_cmp (s : String) : String :=
  let decomposed := (s.data.map nfkdDecompose).flatten
  let stripped := decomposed.filter (fun c => !(isCombiningMark c))
  String.mk (trimChars (stripped.map pyLowerChar))

/-- Python substring test `needle in hay` on code-point lists. -/
def listContainsSub (needle hay : List Char) : Bool :=
  decide (needle <:+: hay)

/-- Python `needle in hay` for strings. -/
def strContainsSub (hay needle : String) : Bool :=
  listContainsSub needle.data hay.data

/-! ## URL parsing (`urllib.parse.urlparse`), to the extent the key
computation and URL normalization need it. -/

/-- `urlsplit` removes ASCII tab, CR and LF anywhere in the URL. -/
def removeUnsafeUrlBytes (cs : List Char) : List Char :=
  cs.filter (fun c => !(c.toNat = 9 || c.toNat = 10 || c.toNat = 13))

/-- Characters allowed after the first character of a URL scheme. -/
def isSchemeChar (c : Char) : Bool :=
  c.isAlphanum || c = '+' || c = '-' || c = '.'

/-- Split at the first occurrence of `sep`: returns the part before it and,
when present, the part after it. -/
def splitFirst (sep : Char) : List Char → List Char × Option (List Char)
  | [] => ([], none)
  | c :: rest =>
    if c = sep then ([], some rest)
    else
      let r := splitFirst sep rest
      (c :: r.1, r.2)

/-- Python `s.split(sep)` for a one-character separator (never returns `[]`;
`"".split("/") == [""]`). -/
def splitAll (sep : Char) : List Char → List (List Char)
  | [] => [[]]
  | c :: rest =>
    let r := splitAll sep rest
    if c = sep then [] :: r
    else
      match r with
      | [] => [[c]]
      | seg :: segs => (c :: seg) :: segs

/-- Strip a leading `scheme:` when the prefix before the first `:` is a valid
scheme (first char ASCII alpha, remaining chars scheme chars), returning
`(scheme lowered, rest)` as `urlsplit` does. -/
def splitScheme (cs : List Char) : List Char × List Char :=
  match splitFirst ':' cs with
  | (before, some after) =>
    match before with
    | [] => ([], cs)
    | c0 :: rest0 =>
      if c0.isAlpha && c0.toNat < 128 && rest0.all isSchemeChar then
        ((c0 :: rest0).map pyLowerChar, after)
      else ([], cs)
  | (_, none) => ([], cs)

/-- Netloc extraction: when the remainder starts with `//`, the netloc runs to
the next `/`, `?` or `#`. Returns `(netloc, rest)`. -/
def splitNetloc (cs : List Char) : List Char × List Char :=
  match cs with
  | '/' :: '/' :: rest =>
    let netloc := rest.takeWhile (fun c => !(c = '/' || c = '?' || c = '#'))
    (netloc, rest.dropWhile (fun c => !(c = '/' || c = '?' || c = '#')))
  | _ => ([], cs)

/-- `_splitparams`: split `;params` off the last path segment only. -/
def splitParamsOff (path : List Char) : List Char × List Char :=
  match (splitAll '/' path).getLast? with
  | none => (path, [])
  | some lastSeg =>
    match splitFirst ';' lastSeg with
    | (_, none) => (path, [])
    | (keep, some params) =>
      let segs := splitAll '/' path
      let newSegs := segs.dropLast ++ [keep]
      (((newSegs.map (String.mk · |>.data)).intersperse ['/']).flatten, params)

structure UrlParts where
  scheme : List Char
  netloc : List Char
  path : List Char
  params : List Char
  query : List Char
  fragment : List Char
deriving DecidableEq, Repr

/-- `urllib.parse.urlparse` (scheme, then netloc, then fragment, then query,
then params split), modulo percent-encoding which it does not touch. -/
def pyUrlparse (u : List Char) : UrlParts :=
  let cs := removeUnsafeUrlBytes u
  let (scheme, rest1) := splitScheme cs
  let (netloc, rest2) := splitNetloc rest1
  let (rest3, frag) := splitFirst '#' rest2
  let fragment := frag.getD []
  let (pathRaw, q) := splitFirst '?' rest3
  let query := q.getD []
  let (path, params) := splitParamsOff pathRaw
  ⟨scheme, netloc, path, params, query, fragment⟩

/-- The nonempty segments of `urlparse(url).path.split("/")`. -/
def urlPathSegments (url : String) : List (List Char) :=
  (splitAll '/' (pyUrlparse url.data).path).filter (fun seg => seg ≠ [])

/-- Python `str.isdigit()` on the ASCII range the sources use. -/
def pyIsdigit (s : List Char) : Bool :=
  s ≠ [] && s.all Char.isDigit

/-! ## SHA-256 (`hashlib.sha256(...).hexdigest()`), over `Nat` bytes. -/

/-- UTF-8 encoding of one code point, as byte values. -/
def utf8EncodeChar (c : Char) : List Nat :=
  let n := c.toNat
  if n < 0x80 then [n]
  else if n < 0x800 then [0xC0 + n / 0x40, 0x80 + n % 0x40]
  else if n < 0x10000 then
    [0xE0 + n / 0x1000, 0x80 + (n / 0x40) % 0x40, 0x80 + n % 0x40]
  else
    [0xF0 + n / 0x40000, 0x80 + (n / 0x1000) % 0x40,
     0x80 + (n / 0x40) % 0x40, 0x80 + n % 0x40]

/-- `s.encode("utf-8")` as a byte list. -/
def utf8Encode (s : String) : List Nat :=
  (s.data.map utf8EncodeChar).flatten

def w32 (n : Nat) : Nat := n % 4294967296

def rotr32 (x n : Nat) : Nat :=
  Nat.lor (Nat.shiftRight x n) (w32 (Nat.shiftLeft x (32 - n)))

def shaCh (e f g : Nat) : Nat :=
  Nat.xor (Nat.land e f) (Nat.land (Nat.xor e 4294967295) g)

def shaMaj (a b c : Nat) : Nat :=
  Nat.xor (Nat.xor (Nat.land a b) (Nat.land a c)) (Nat.land b c)

def bigSigma0 (x : Nat) : Nat := Nat.xor (Nat.xor (rotr32 x 2) (rotr32 x 13)) (rotr32 x 22)
def bigSigma1 (x : Nat) : Nat := Nat.xor (Nat.xor (rotr32 x 6) (rotr32 x 11)) (rotr32 x 25)
def smlSigma0 (x : Nat) : Nat := Nat.xor (Nat.xor (rotr32 x 7) (rotr32 x 18)) (Nat.shiftRight x 3)
def smlSigma1 (x : Nat) : Nat := Nat.xor (Nat.xor (rotr32 x 17) (rotr32 x 19)) (Nat.shiftRight x 10)

def SHA256_K : List Nat :=
  [1116352408, 1899447441, 3049323471, 3921009573, 961987163, 1508970993,
   2453635748, 2870763221, 3624381080, 310598401, 607225278, 1426881987,
   1925078388, 2162078206, 2614888103, 3248222580, 3835390401, 4022224774,
   264347078, 604807628, 770255983, 1249150122, 1555081692, 1996064986,
   2554220882, 2821834349, 2952996808, 3210313671, 3336571891, 3584528711,
   113926993, 338241895, 666307205, 773529912, 1294757372, 1396182291,
   1695183700, 1986661051, 2177026350, 2456956037, 2730485921, 2820302411,
   3259730800, 3345764771, 3516065817, 3600352804, 4094571909, 275423344,
   430227734, 506948616, 659060556, 883997877, 958139571, 1322822218,
   1537002063, 1747873779, 1955562222, 2024104815, 2227730452, 2361852424,
   2428436474, 2756734187, 3204031479, 3329325298]

def SHA256_H0 : List Nat :=
  [1779033703, 3144134277, 1013904242, 2773480762, 1359893119, 2600822924,
   528734635, 1541459225]

/-- Extend a 16-word message schedule by `k` further words. -/
def sha256Extend (w : List Nat) : Nat → List Nat
  | 0 => w
  | k + 1 =>
    let i := w.length
    let nw := w32 (w.getD (i - 16) 0 + smlSigma0 (w.getD (i - 15) 0) +
                   w.getD (i - 7) 0 + smlSigma1 (w.getD (i - 2) 0))
    sha256Extend (w ++ [nw]) k

/-- One SHA-256 compression round. -/
def sha256Round (st : List Nat) (kw : Nat × Nat) : List Nat :=
  match st with
  | [a, b, c, d, e, f, g, h] =>
    let t1 := w32 (h + bigSigma1 e + shaCh e f g + kw.1 + kw.2)
    let t2 := w32 (bigSigma0 a + shaMaj a b c)
    [w32 (t1 + t2), a, b, c, w32 (d + t1), e, f, g]
  | st => st

/-- Process one 512-bit chunk (given as 16 words). -/
def sha256Compress (hs : List Nat) (chunk : List Nat) : List Nat :=
  let ws := sha256Extend chunk 48
  let fin := (SHA256_K.zip ws).foldl sha256Round hs
  List.zipWith (fun h x => w32 (h + x)) hs fin

/-- Big-endian bytes of `n` over 8 bytes. -/
def bytesBE8 (n : Nat) : List Nat :=
  (List.range 8).reverse.map (fun i => (Nat.shiftRight n (8 * i)) % 256)

/-- SHA-256 padding: `0x80`, zeros to 56 mod 64, 64-bit big-endian bit length. -/
def sha256Pad (msg : List Nat) : List Nat :=
  let len := msg.length
  let padZeros := (55 - len % 64 + 64) % 64
  msg ++ [0x80] ++ List.replicate padZeros 0 ++ bytesBE8 (len * 8)

/-- Big-endian 32-bit words from a byte list. -/
def bytesToWords : List Nat → List Nat
  | b0 :: b1 :: b2 :: b3 :: rest => (((b0 * 256 + b1) * 256 + b2) * 256 + b3) :: bytesToWords rest
  | _ => []

/-- Group a word list into 16-word chunks (fuel-driven so the kernel can
evaluate it; the fuel is the list length). -/
def groupWordsAux : Nat → List Nat → List (List Nat)
  | 0, _ => []
  | _, [] => []
  | fuel + 1, c :: rest => ((c :: rest).take 16) :: groupWordsAux fuel (rest.drop 15)

/-- Group a word list into 16-word chunks. -/
def groupWords16 (ws : List Nat) : List (List Nat) := groupWordsAux ws.length ws

def hexDigitChar (n : Nat) : Char :=
  "0123456789abcdef".data.getD n '0'

def wordToHex8 (n : Nat) : List Char :=
  (List.range 8).reverse.map (fun i => hexDigitChar ((Nat.shiftRight n (4 * i)) % 16))

/-- `hashlib.sha256(bytes).hexdigest()`. -/
def sha256Hexdigest (msg : List Nat) : String :=
  String.mk (((groupWords16 (bytesToWords (sha256Pad msg))).foldl sha256Compress SHA256_H0).map wordToHex8).flatten

/-- `hashlib.sha256(s.encode("utf-8")).hexdigest()`. -/
def sha256HexOfString (s : String) : String :=
  sha256Hexdigest (utf8Encode s)

/-! ## The `Announcement` data type and its identity key. -/

/-- `Announcement` dataclass: `site`, `title`, `url`, `meta` (string-to-string
mapping, modelled as an association list).  It carries no other field — in
particular no source-native explicit id. -/
structure Announcement where
  site : String
  title : String
  url : String
  meta : List (String × String)
deriving DecidableEq, Repr

/-- The body of `Announcement.key`, as a function of the fields it reads
(`self.site`, `self.url`, `self.title`): prefer the first purely numeric URL
path segment, else the last path segment, else
`sha256(url + "||" + title)`.  The Python `try` block cannot fail in this
total model, so the `except` path coincides with the no-segment path. -/
def announcementKey (site url title : String) : String :=
  match (urlPathSegments url).find? pyIsdigit with
  | some seg => site ++ ":" ++ String.mk seg
  | none =>
    match (urlPathSegments url).getLast? with
    | some lastSeg => site ++ ":" ++ String.mk lastSeg
    | none => site ++ ":" ++ sha256HexOfString (url ++ "||" ++ title)

/-- `Announcement.key` property. -/
def Announcement.key (a : Announcement) : String :=
  announcementKey a.site a.url a.title

/-! ## Filter Engine (`forbidden_hit`, `FORBIDDEN_WORDS`). -/

def FORBIDDEN_WORDS : List String :=
  ["horeca", "restaurant", "bar", "traiteur", "alimentaire"]

/-- `ann.meta.get(k, "")`. -/
def annMetaGet (m : List (String × String)) (k : String) : String :=
  ((m.find? (fun kv => kv.1 = k)).map (fun kv => kv.2)).getD ""

/-- Python `" ".join(xs)`. -/
def joinWithSpace (xs : List String) : String :=
  String.mk (((xs.map String.data).intersperse [' ']).flatten)

/-- The haystack of `forbidden_hit`: title plus the eleven listed meta fields,
in source order. -/
def forbiddenHay (ann : Announcement) : String :=
  joinWithSpace
    [ann.title,
     annMetaGet ann.meta "location", annMetaGet ann.meta "price",
     annMetaGet ann.meta "teaser", annMetaGet ann.meta "type",
     annMetaGet ann.meta "sector", annMetaGet ann.meta "branche",
     annMetaGet ann.meta "region", annMetaGet ann.meta "description",
     annMetaGet ann.meta "turnover", annMetaGet ann.meta "omzet"]

/-- The `for w in words: if w and w in hay_n: return w` loop. -/
def firstHit (hayN : String) : List String → String
  | [] => ""
  | w :: ws => if w ≠ "" && strContainsSub hayN w then w else firstHit hayN ws

/-- `forbidden_hit`, with the denylist the source reads from the module
constant `FORBIDDEN_WORDS` made a parameter. -/
def forbidden_hit_with (forbiddenWords : List String) (ann : Announcement) : String :=
  let words := (forbiddenWords.filter
      (fun w => w ≠ "" && String.mk (trimChars w.data) ≠ "")).map norm_cmp
  if words = [] then ""
  else firstHit (norm_cmp (forbiddenHay ann)) words

/-- `forbidden_hit` as the source defines it, over `FORBIDDEN_WORDS`. -/
def forbidden_hit (ann : Announcement) : String :=
  forbidden_hit_with FORBIDDEN_WORDS ann

/-- Modelled from the spec, for comparison only (claim C6 names exactly the
fields title, location, price, teaser, type, sector, description, turnover):
`forbidden_hit` recomputed over that restricted haystack.  The source function
is `forbidden_hit` above; this definition follows the claim's words. -/
def forbiddenHaySpecFields (ann : Announcement) : String :=
  joinWithSpace
    [ann.title,
     annMetaGet ann.meta "location", annMetaGet ann.meta "price",
     annMetaGet ann.meta "teaser", annMetaGet ann.meta "type",
     annMetaGet ann.meta "sector", annMetaGet ann.meta "description",
     annMetaGet ann.meta "turnover"]

/-- Modelled from the spec: the claim-C6 variant of `forbidden_hit` over the
spec's field list, used only as the comparison point for the counterexample. -/
def forbidden_hit_specFields (ann : Announcement) : String :=
  let words := (FORBIDDEN_WORDS.filter
      (fun w => w ≠ "" && String.mk (trimChars w.data) ≠ "")).map norm_cmp
  if words = [] then ""
  else firstHit (norm_cmp (forbiddenHaySpecFields ann)) words

/-! ## State store (`load_state`). -/

/-- JSON values, as `json.load` produces them. -/
inductive JValue where
  | null
  | bool (b : Bool)
  | num (n : Int)
  | str (s : String)
  | arr (xs : List JValue)
  | obj (kvs : List (String × JValue))

/-- `isinstance(v, list) or isinstance(v, dict)`. -/
def JValue.isListOrDict : JValue → Bool
  | .arr _ => true
  | .obj _ => true
  | _ => false

/-- What reading the state file can yield: the file is missing, opening or
parsing it raised, or it parsed to a JSON value. -/
inductive StateFile where
  | missing
  | unreadable
  | parsed (v : JValue)

/-- `load_state`: missing file or any exception gives the empty state; a
non-dict top level gives the empty state; from a dict, keep exactly the
entries whose value is a list or a dict, in order. -/
def load_state : StateFile → List (String × JValue)
  | .missing => []
  | .unreadable => []
  | .parsed v =>
    match v with
    | .obj kvs =>
      kvs.foldl (fun out kv => if kv.2.isListOrDict then out ++ [kv] else out) []
    | _ => []

/-! ## Notifier (`send_telegram`). -/

/-- One `session.post` to the Telegram API: it succeeded (`rr.ok`), returned a
non-2xx status whose body parsed to the given `retry_after` (0 when parsing
fails, as the `except` sets it), or raised. -/
inductive PostResult where
  | ok
  | fail (status : Int) (retryAfter : Int)
  | exn
deriving DecidableEq, Repr

/-- How one `send_telegram` call ends.  Only `raised` propagates to the
caller; every other outcome returns normally. -/
inductive TgOutcome where
  | notConfigured
  | delivered
  | failedReturn
  | exhausted
  | raised
deriving DecidableEq, Repr

/-- `send_telegram` returns without raising for every outcome except an
exception escaping `session.post`. -/
def TgOutcome.returnsNormally : TgOutcome → Bool
  | .raised => false
  | _ => true

/-- The `for attempt in range(3)` retry loop of `send_telegram`: retry only on
a 429 with positive `retry_after`; any other failure prints and returns. -/
def sendTelegramFrom (responses : Nat → PostResult) (attempt : Nat) : Nat → TgOutcome
  | 0 => .exhausted
  | n + 1 =>
    match responses attempt with
    | .ok => .delivered
    | .exn => .raised
    | .fail status retryAfter =>
      if status = 429 && 0 < retryAfter then sendTelegramFrom responses (attempt + 1) n
      else .failedReturn

/-- `send_telegram(session, bot_token, chat_id, message)`; the network's
behaviour for this message is `responses` (per attempt index). -/
def send_telegram (botToken chatId : String) (responses : Nat → PostResult) : TgOutcome :=
  if botToken = "" || chatId = "" then .notConfigured
  else sendTelegramFrom responses 0 3

/-! ## State map plumbing shared by the runners. -/

def META_KEY : String := "_meta"

/-- Values of the per-source `_meta` sub-dicts (ints such as `last_id`,
strings such as `api_url`). -/
inductive MetaVal where
  | i (n : Int)
  | s (v : String)
deriving DecidableEq, Repr

abbrev MetaObj := List (String × List (String × MetaVal))

/-- A value of the persisted state dict: a list of seen keys, or a dict (the
`_meta` entry). -/
inductive StVal where
  | keys (ks : List String)
  | metaV (m : MetaObj)
deriving DecidableEq, Repr

abbrev StateMap := List (String × StVal)

def stateLookup (state : StateMap) (k : String) : Option StVal :=
  (state.find? (fun kv => kv.1 = k)).map (fun kv => kv.2)

/-- `set(state.get(site_name, [])) if isinstance(state.get(site_name, []), list)
else set()`, as a list with set membership semantics. -/
def seenKeysOf (state : StateMap) (site : String) : List String :=
  match stateLookup state site with
  | some (.keys ks) => ks
  | _ => []

/-- `state[k] = v` (dicts keep the key's original position on overwrite). -/
def stateSet (state : StateMap) (k : String) (v : StVal) : StateMap :=
  if state.any (fun kv => kv.1 = k) then
    state.map (fun kv => if kv.1 = k then (k, v) else kv)
  else state ++ [(k, v)]

/-- `seen.add(key)`. -/
def addSeen (seen : List String) (k : String) : List String :=
  if seen.contains k then seen else seen ++ [k]

/-- One step of the `uniq_by_key[it.key] = it` loop. -/
def upsertByKey (m : List (String × Announcement)) (k : String) (a : Announcement) :
    List (String × Announcement) :=
  if m.any (fun kv => kv.1 = k) then
    m.map (fun kv => if kv.1 = k then (k, a) else kv)
  else m ++ [(k, a)]

/-- `uniq_by_key` dict build followed by `list(uniq_by_key.values())`: later
items with the same key overwrite earlier ones, keeping the first position. -/
def dedupByKey (items : List Announcement) : List Announcement :=
  (items.foldl (fun m it => upsertByKey m it.key it) []).map (fun kv => kv.2)

/-- `for page in range(1, max_pages + 1)`: fetch every page, a failed page
(`fetch` returns `none`) contributing nothing; also record the pages
requested, in order. -/
def fetchPagesLoop (fetch : Nat → Option (List Announcement)) (page : Nat) :
    Nat → List Announcement × List Nat
  | 0 => ([], [])
  | n + 1 =>
    let here := (fetch page).getD []
    let rest := fetchPagesLoop fetch (page + 1) n
    (here ++ rest.1, page :: rest.2)

/-- Sort order of `new_items.sort(key=lambda x: x.url)`. -/
def urlLe (a b : Announcement) : Prop := charListLe a.url.data b.url.data = true

instance : DecidableRel urlLe := fun a b => by unfold urlLe; infer_instance

def MAX_NEW_PER_RUN : Nat := 40

/-- The in-loop state of the per-item processing in both runners: the seen
set, the `sent` counter, the `changed` flag, and (instrumentation) the log of
`send_telegram` invocations with their outcomes. -/
structure LoopState where
  seen : List String
  sent : Nat
  changed : Bool
  log : List (String × TgOutcome)
deriving DecidableEq, Repr

/-- The `for ann in new_items` loop shared by `run_site` and
`run_site_direct`: a forbidden item is marked seen and skipped; once `sent`
reaches the cap the loop breaks; a formatter exception or falsy message marks
seen and skips; otherwise `send_telegram` runs — if it raises, nothing is
recorded and the loop continues with the next item, else the item is counted
sent and marked seen. -/
def processNewItems (cap : Nat) (fmt : Announcement → Option String)
    (send : String → TgOutcome) : List Announcement → LoopState → LoopState
  | [], st => st
  | ann :: rest, st =>
    if forbidden_hit ann ≠ "" then
      processNewItems cap fmt send rest ⟨addSeen st.seen ann.key, st.sent, true, st.log⟩
    else if cap ≤ st.sent then st
    else
      match fmt ann with
      | none =>
        processNewItems cap fmt send rest ⟨addSeen st.seen ann.key, st.sent, true, st.log⟩
      | some m =>
        if m = "" then
          processNewItems cap fmt send rest ⟨addSeen st.seen ann.key, st.sent, true, st.log⟩
        else if send m = .raised then
          processNewItems cap fmt send rest ⟨st.seen, st.sent, st.changed, st.log ++ [(m, send m)]⟩
        else
          processNewItems cap fmt send rest
            ⟨addSeen st.seen ann.key, st.sent + 1, true, st.log ++ [(m, send m)]⟩

/-- What a runner returns, plus instrumentation: the resulting state dict, the
send log, and (for `run_site`) the pages requested. -/
structure RunResult where
  newDetected : Nat
  sent : Nat
  changed : Bool
  state : StateMap
  log : List (String × TgOutcome)
  pages : List Nat
deriving DecidableEq, Repr

/-- The accumulated `all_items` and requested pages of `run_site`. -/
def runSiteFetched (fetch : Nat → Option (List Announcement)) (maxPages : Nat) :
    List Announcement × List Nat :=
  fetchPagesLoop fetch 1 maxPages

/-- `new_items` as `run_site` computes them: fetch all pages, dedup by key,
drop items whose key is already seen. -/
def runSiteNewItems (site : String) (fetch : Nat → Option (List Announcement))
    (maxPages : Nat) (state : StateMap) : List Announcement :=
  let seen := seenKeysOf state site
  (dedupByKey (runSiteFetched fetch maxPages).1).filter (fun a => !(seen.contains a.key))

/-- `run_site` (the generic HTML runner), with the module constants
`MAX_NEW_PER_RUN` and the transport behaviour passed explicitly: `fetch page`
is `fetch_fn(session, page)` (`none` when it raises), `fmt` is `format_fn`
(`none` when it raises or returns `None`), and `net m attempt` is the
Telegram API's response to posting message `m` the given attempt. -/
def run_site (cap : Nat) (site : String) (fetch : Nat → Option (List Announcement))
    (fmt : Announcement → Option String) (maxPages : Nat) (state : StateMap)
    (botToken chatId : String) (net : String → Nat → PostResult) : RunResult :=
  let fetched := runSiteFetched fetch maxPages
  let seen0 := seenKeysOf state site
  let newItems := runSiteNewItems site fetch maxPages state
  if newItems.isEmpty then ⟨0, 0, false, state, [], fetched.2⟩
  else
    let sorted := List.insertionSort urlLe newItems
    let fin := processNewItems cap fmt (fun m => send_telegram botToken chatId (net m))
        sorted ⟨seen0, 0, false, []⟩
    ⟨newItems.length, fin.sent, fin.changed, stateSet state site (.keys fin.seen),
     fin.log, fetched.2⟩

/-- The `_meta` dict of the state (empty when absent or not a dict). -/
def metaObjOf (state : StateMap) : MetaObj :=
  match stateLookup state META_KEY with
  | some (.metaV m) => m
  | _ => []

/-- `run_site_direct` (API/SPA runner).  `fetchItems` is
`fetch_items_fn(session, state)`: it may read and update the `_meta` dict and
either return items or raise (`none`); the in-place `_meta` mutations persist
even when the fetch fails or no item is new. -/
def run_site_direct (cap : Nat) (site : String)
    (fetchItems : MetaObj → MetaObj × Option (List Announcement))
    (fmt : Announcement → Option String) (state : StateMap)
    (botToken chatId : String) (net : String → Nat → PostResult) : RunResult :=
  let seen0 := seenKeysOf state site
  let m0 := metaObjOf state
  let fr := fetchItems m0
  let state1 := if fr.1 = m0 then state else stateSet state META_KEY (.metaV fr.1)
  match fr.2 with
  | none => ⟨0, 0, false, state1, [], []⟩
  | some fetchedItems =>
    let items := dedupByKey fetchedItems
    let newItems := items.filter (fun a => !(seen0.contains a.key))
    if newItems.isEmpty then ⟨0, 0, false, state1, [], []⟩
    else
      let sorted := List.insertionSort urlLe newItems
      let fin := processNewItems cap fmt (fun m => send_telegram botToken chatId (net m))
          sorted ⟨seen0, 0, false, []⟩
      ⟨newItems.length, fin.sent, fin.changed, stateSet state1 site (.keys fin.seen),
       fin.log, []⟩

/-! ## `normalize_url` (strip `utm_` query parameters and the fragment). -/

/-- Value of an ASCII hex digit. -/
def hexVal (c : Char) : Option Nat :=
  if '0' ≤ c && c ≤ '9' then some (c.toNat - 48)
  else if 'A' ≤ c && c ≤ 'F' then some (c.toNat - 55)
  else if 'a' ≤ c && c ≤ 'f' then some (c.toNat - 87)
  else none

/-- `unquote_plus`, byte phase: `+` to space, `%XX` to the byte, malformed
escapes left verbatim.  Operates on UTF-8 bytes. -/
def unquotePlusBytes : List Nat → List Nat
  | [] => []
  | 37 :: h1 :: h2 :: rest =>
    match hexVal (Char.ofNat h1), hexVal (Char.ofNat h2) with
    | some a, some b => (16 * a + b) :: unquotePlusBytes rest
    | _, _ => 37 :: unquotePlusBytes (h1 :: h2 :: rest)
  | 43 :: rest => 32 :: unquotePlusBytes rest
  | b :: rest => b :: unquotePlusBytes rest

/-- Ranged check for a UTF-8 continuation byte. -/
def isCont (b : Nat) : Bool := 0x80 ≤ b && b ≤ 0xBF

/-- UTF-8 decoding with U+FFFD replacement on errors (`errors="replace"`),
fuel-driven on the byte count. -/
def utf8DecodeAux : Nat → List Nat → List Char
  | 0, _ => []
  | _, [] => []
  | fuel + 1, b :: rest =>
    if b < 0x80 then Char.ofNat b :: utf8DecodeAux fuel rest
    else if 0xC2 ≤ b && b ≤ 0xDF then
      match rest with
      | b2 :: rest2 =>
        if isCont b2 then Char.ofNat ((b - 0xC0) * 0x40 + (b2 - 0x80)) :: utf8DecodeAux fuel rest2
        else Char.ofNat 0xFFFD :: utf8DecodeAux fuel rest
      | [] => [Char.ofNat 0xFFFD]
    else if 0xE0 ≤ b && b ≤ 0xEF then
      match rest with
      | b2 :: b3 :: rest3 =>
        if isCont b2 && isCont b3 then
          let cp := (b - 0xE0) * 0x1000 + (b2 - 0x80) * 0x40 + (b3 - 0x80)
          (if 0xD800 ≤ cp && cp ≤ 0xDFFF then Char.ofNat 0xFFFD else Char.ofNat cp) ::
            utf8DecodeAux fuel rest3
        else Char.ofNat 0xFFFD :: utf8DecodeAux fuel rest
      | _ => Char.ofNat 0xFFFD :: utf8DecodeAux fuel rest
    else if 0xF0 ≤ b && b ≤ 0xF4 then
      match rest with
      | b2 :: b3 :: b4 :: rest4 =>
        if isCont b2 && isCont b3 && isCont b4 then
          let cp := (b - 0xF0) * 0x40000 + (b2 - 0x80) * 0x1000 + (b3 - 0x80) * 0x40 + (b4 - 0x80)
          (if cp ≤ 0x10FFFF then Char.ofNat cp else Char.ofNat 0xFFFD) :: utf8DecodeAux fuel rest4
        else Char.ofNat 0xFFFD :: utf8DecodeAux fuel rest
      | _ => Char.ofNat 0xFFFD :: utf8DecodeAux fuel rest
    else Char.ofNat 0xFFFD :: utf8DecodeAux fuel rest

def utf8Decode (bs : List Nat) : List Char := utf8DecodeAux bs.length bs

/-- `urllib.parse.unquote_plus(s)`. -/
def unquotePlus (cs : List Char) : String :=
  String.mk (utf8Decode (unquotePlusBytes (utf8Encode (String.mk cs))))

/-- `parse_qsl(query, keep_blank_values=True)`: split on `&`, skip empty
chunks, split each at the first `=` (a chunk without `=` keeps a blank
value), percent-decode both sides. -/
def parse_qsl (query : List Char) : List (String × String) :=
  ((splitAll '&' query).filter (fun p => p ≠ [])).map (fun nv =>
    match splitFirst '=' nv with
    | (n, some v) => (unquotePlus n, unquotePlus v)
    | (n, none) => (unquotePlus n, ""))

/-- Characters `quote_plus` never escapes (letters, digits, `_.-~`). -/
def isQuoteSafe (b : Nat) : Bool :=
  (48 ≤ b && b ≤ 57) || (65 ≤ b && b ≤ 90) || (97 ≤ b && b ≤ 122) ||
  b = 95 || b = 46 || b = 45 || b = 126

def hexUpperDigit (n : Nat) : Char :=
  "0123456789ABCDEF".data.getD n '0'

/-- `quote_plus(s)` over the string's UTF-8 bytes. -/
def quotePlus (s : String) : List Char :=
  ((utf8Encode s).map (fun b =>
    if isQuoteSafe b then [Char.ofNat b]
    else if b = 32 then ['+']
    else ['%', hexUpperDigit (b / 16), hexUpperDigit (b % 16)])).flatten

/-- `urlencode(q, doseq=True)` on string pairs. -/
def urlencodePairs (q : List (String × String)) : List Char :=
  ((q.map (fun kv => quotePlus kv.1 ++ ['='] ++ quotePlus kv.2)).intersperse ['&']).flatten

/-- `urlunparse`: reattach params, netloc, scheme, query, fragment. -/
def urlunparseParts (p : UrlParts) : String :=
  let url1 := if p.params ≠ [] then p.path ++ [';'] ++ p.params else p.path
  let url2 :=
    if p.netloc ≠ [] || url1.take 2 = ['/', '/'] then
      ['/', '/'] ++ p.netloc ++
        (if url1 ≠ [] && url1.head? ≠ some '/' then '/' :: url1 else url1)
    else url1
  let url3 := if p.scheme ≠ [] then p.scheme ++ [':'] ++ url2 else url2
  let url4 := if p.query ≠ [] then url3 ++ ['?'] ++ p.query else url3
  let url5 := if p.fragment ≠ [] then url4 ++ ['#'] ++ p.fragment else url4
  String.mk url5

/-- `s.lower().startswith("utm_")` on a parameter name. -/
def isUtmName (s : String) : Bool :=
  match (s.data.map pyLowerChar) with
  | 'u' :: 't' :: 'm' :: '_' :: _ => true
  | _ => false

/-- `normalize_url`: drop `utm_*` query parameters and the fragment, keep the
rest (the `try` body; the `except` fallback is unreachable in this total
model). -/
def normalize_url (u : String) : String :=
  let p := pyUrlparse u.data
  let q := (parse_qsl p.query).filter (fun kv => !(isUtmName kv.1))
  urlunparseParts ⟨p.scheme, p.netloc, p.path, p.params, urlencodePairs q, []⟩

/-! ## Bedrijventekoop sequential-ID fallback. -/

def BTK_SITE : String := "bedrijventekoop"
def BTK_BASE : String := "https://www.bedrijventekoop.be"
def BTK_MAX_PROBE_PER_RUN : Nat := 40

/-- The outcome of `session.get` on a probe's detail URL, at the boundary of
the HTML extraction: the request raised, or returned with a status, an `ok`
flag, the final (post-redirect) URL, and the extracted h1 title / location /
sector captures (each `none` when absent). -/
inductive ProbeResult where
  | exn
  | http (status : Int) (okFlag : Bool) (finalUrl : String)
      (h1Title : Option String) (location : Option String) (sector : Option String)

/-- `fetch_btk_detail_by_id` from the response on: a 404 or non-ok response
yields `None`; a cleaned title shorter than 3 yields `None`; a denylist hit
on the built announcement yields `None`; otherwise the announcement, with the
normalized final URL.  `Except.error` models the call raising. -/
def fetch_btk_detail_by_id (resp : ProbeResult) : Except Unit (Option Announcement) :=
  match resp with
  | .exn => .error ()
  | .http status okFlag finalUrl h1Title location sector =>
    if status = 404 || !okFlag then .ok none
    else
      let title := match h1Title with
        | some t => text_clean t
        | none => ""
      if title.length < 3 then .ok none
      else
        let meta :=
          (match location with
           | some l => [("location", text_clean l)]
           | none => []) ++
          (match sector with
           | some s => [("sector", text_clean s)]
           | none => [])
        let ann : Announcement := ⟨BTK_SITE, title, normalize_url finalUrl, meta⟩
        if forbidden_hit ann ≠ "" then .ok none else .ok (some ann)

/-- The per-site `_meta` entries the fallback uses (`last_id` stored as a
Python int). -/
abbrev BtkMeta := List (String × Int)

/-- `int(meta_get(state, BTK_SITE, "last_id", 0) or 0)`. -/
def btkMetaGet (m : BtkMeta) (k : String) : Int :=
  ((m.find? (fun kv => kv.1 = k)).map (fun kv => kv.2)).getD 0

/-- `meta_set(state, BTK_SITE, k, v)` restricted to the one sub-dict the
fallback touches. -/
def btkMetaSet (m : BtkMeta) (k : String) (v : Int) : BtkMeta :=
  if m.any (fun kv => kv.1 = k) then
    m.map (fun kv => if kv.1 = k then (k, v) else kv)
  else m ++ [(k, v)]

/-- `list(range(a, b + 1))` on Python ints. -/
def intRangeIncl (a b : Int) : List Int :=
  (List.range (b + 1 - a).toNat).map (fun i => a + i)

def sortedInsertNoDup (x : Int) : List Int → List Int
  | [] => [x]
  | y :: ys =>
    if x < y then x :: y :: ys
    else if x = y then y :: ys
    else y :: sortedInsertNoDup x ys

/-- `sorted(set(xs))`. -/
def sortedDedup (xs : List Int) : List Int := xs.foldr sortedInsertNoDup []

/-- `max(ids)` on a nonempty list (0 as the never-used empty default). -/
def maxIntList : List Int → Int
  | [] => 0
  | [x] => x
  | x :: y :: rest => max x (maxIntList (y :: rest))

/-- What `fetch_btk_listings_fallback` produces, plus instrumentation: the
updated meta, the announcements, and the IDs it probed, in order. -/
structure BtkFallbackResult where
  meta : BtkMeta
  items : List Announcement
  probed : List Int
deriving DecidableEq, Repr

/-- One iteration of the probe loop: the announcement (when any) is appended
and `highest_seen` advances to the probed ID in the `try` body and in the
`except` alike. -/
def btkProbeStep (probe : Int → ProbeResult) (acc : List Announcement × Int) (i : Int) :
    List Announcement × Int :=
  match fetch_btk_detail_by_id (probe i) with
  | .error _ => (acc.1, max acc.2 i)
  | .ok none => (acc.1, max acc.2 i)
  | .ok (some a) => (acc.1 ++ [a], max acc.2 i)

/-- The announcement a probed ID contributes, when its probe returns one. -/
def btkProbeFound (probe : Int → ProbeResult) (i : Int) : Option Announcement :=
  match fetch_btk_detail_by_id (probe i) with
  | .ok (some a) => some a
  | _ => none

/-- `fetch_btk_listings_fallback`: combine the IDs scraped from the home and
listing pages (each page's extraction a boundary input); with no IDs, do
nothing.  On the very first run (`last_id` 0 or missing) only record the
maximum.  Otherwise probe the IDs strictly between `last_id` and the maximum,
capped at `BTK_MAX_PROBE_PER_RUN`, collecting the announcements of successful
probes, and advance `last_id` to the highest ID probed whatever each probe's
outcome (exceptions included). -/
def fetch_btk_listings_fallback (homeIds listIds : List Int)
    (probe : Int → ProbeResult) (meta : BtkMeta) : BtkFallbackResult :=
  let ids := sortedDedup (homeIds ++ listIds)
  if ids = [] then ⟨meta, [], []⟩
  else
    let maxId := maxIntList ids
    let lastId := btkMetaGet meta "last_id"
    if lastId = 0 then ⟨btkMetaSet meta "last_id" maxId, [], []⟩
    else if maxId ≤ lastId then ⟨meta, [], []⟩
    else
      let toProbe := (intRangeIncl (lastId + 1) maxId).take BTK_MAX_PROBE_PER_RUN
      let fin := toProbe.foldl (btkProbeStep probe) (([] : List Announcement), lastId)
      ⟨btkMetaSet meta "last_id" fin.2, fin.1, toProbe⟩

/-! ## Derived definitions used by the theorem statements. -/

/-- Adding a list of keys to the seen set, in order. -/
def addSeenList (seen : List String) (ks : List String) : List String :=
  ks.foldl addSeen seen

/-- The meta fields `forbidden_hit`'s haystack reads, in source order. -/
def forbiddenFieldNames : List String :=
  ["location", "price", "teaser", "type", "sector", "branche", "region",
   "description", "turnover", "omzet"]

/-- The word predicate of the `forbidden_hit` scan loop. -/
def hitPred (hayN : String) (w : String) : Bool :=
  w ≠ "" && strContainsSub hayN w

/-- Discriminator for JSON objects. -/
def JValue.isObj : JValue → Bool
  | .obj _ => true
  | _ => false

/-! ## Auxiliary lemmas. -/

theorem mem_addSeen {s : List String} {k x : String} :
    x ∈ addSeen s k ↔ x ∈ s ∨ x = k := by
  unfold addSeen
  by_cases h : s.contains k
  · rw [if_pos h]
    refine ⟨Or.inl, ?_⟩
    rintro (hx | rfl)
    · exact hx
    · simpa using h
  · rw [if_neg h]
    simp

theorem mem_addSeenList {s : List String} {ks : List String} {x : String} :
    x ∈ addSeenList s ks ↔ x ∈ s ∨ x ∈ ks := by
  induction ks generalizing s with
  | nil => simp [addSeenList]
  | cons k ks ih =>
    show x ∈ addSeenList (addSeen s k) ks ↔ _
    rw [ih, mem_addSeen]
    simp only [List.mem_cons]
    tauto

theorem stateLookup_stateSet_self (state : StateMap) (k : String) (v : StVal) :
    stateLookup (stateSet state k v) k = some v := by
  unfold stateSet
  by_cases h : state.any (fun kv => kv.1 = k)
  · rw [if_pos h]
    unfold stateLookup
    induction state with
    | nil => simp at h
    | cons kv rest ih =>
      by_cases hk : kv.1 = k
      · simp [hk]
      · simp only [List.any_cons, hk, decide_False, Bool.false_or] at h
        simp only [List.map_cons, if_neg hk]
        rw [List.find?_cons_of_neg _ (by simpa using hk)]
        exact ih h
  · rw [if_neg h]
    unfold stateLookup
    induction state with
    | nil => simp
    | cons kv rest ih =>
      simp only [List.any_cons, Bool.or_eq_true] at h
      push_neg at h
      simp only [List.cons_append]
      rw [List.find?_cons_of_neg _ (by simpa using h.1)]
      exact ih (by simpa using h.2)

theorem seenKeysOf_stateSet_self (state : StateMap) (site : String) (ks : List String) :
    seenKeysOf (stateSet state site (.keys ks)) site = ks := by
  unfold seenKeysOf
  rw [stateLookup_stateSet_self]

theorem processNewItems_seen_superset (cap : Nat) (fmt : Announcement → Option String)
    (send : String → TgOutcome) (items : List Announcement) (st : LoopState) :
    ∀ x ∈ st.seen, x ∈ (processNewItems cap fmt send items st).seen := by
  induction items generalizing st with
  | nil => intro x hx; simpa [processNewItems] using hx
  | cons a rest ih =>
    intro x hx
    unfold processNewItems
    by_cases hf : forbidden_hit a ≠ ""
    · rw [if_pos hf]
      exact ih _ x (mem_addSeen.mpr (Or.inl hx))
    · rw [if_neg hf]
      by_cases hcap : cap ≤ st.sent
      · rw [if_pos hcap]; exact hx
      · rw [if_neg hcap]
        cases hm : fmt a with
        | none => exact ih _ x (mem_addSeen.mpr (Or.inl hx))
        | some m =>
          dsimp only
          by_cases hme : m = ""
          · rw [if_pos hme]
            exact ih _ x (mem_addSeen.mpr (Or.inl hx))
          · rw [if_neg hme]
            by_cases hout : send m = TgOutcome.raised
            · rw [if_pos hout]; exact ih _ x hx
            · rw [if_neg hout]
              exact ih _ x (mem_addSeen.mpr (Or.inl hx))

theorem fetchPagesLoop_pages (fetch : Nat → Option (List Announcement)) (page n : Nat) :
    (fetchPagesLoop fetch page n).2 = List.range' page n := by
  induction n generalizing page with
  | zero => simp [fetchPagesLoop]
  | succ n ih => simp [fetchPagesLoop, ih, List.range'_succ]

theorem firstHit_eq_find (hayN : String) (ws : List String) :
    firstHit hayN ws = ((ws.find? (hitPred hayN)).getD "") := by
  induction ws with
  | nil => rfl
  | cons w ws ih =>
    unfold firstHit
    by_cases h : (w ≠ "" && strContainsSub hayN w) = true
    · rw [if_pos h, List.find?_cons_of_pos _ (by simpa [hitPred] using h)]
      rfl
    · rw [if_neg h, List.find?_cons_of_neg _ (by simpa [hitPred] using h)]
      exact ih

theorem foldl_filter_append (p : (String × JValue) → Bool) (kvs : List (String × JValue))
    (acc : List (String × JValue)) :
    kvs.foldl (fun out kv => if p kv then out ++ [kv] else out) acc = acc ++ kvs.filter p := by
  induction kvs generalizing acc with
  | nil => simp
  | cons kv rest ih =>
    by_cases h : p kv
    · simp [List.foldl_cons, h, ih]
    · simp [List.foldl_cons, h, ih]

theorem addSeenList_cons (s : List String) (k : String) (ks : List String) :
    addSeenList s (k :: ks) = addSeenList (addSeen s k) ks := rfl

theorem processNewItems_uniform (cap : Nat) (fmt : Announcement → Option String)
    (send : String → TgOutcome) (items : List Announcement) (st : LoopState)
    (hsent : st.sent ≤ cap)
    (h : ∀ a ∈ items, forbidden_hit a = "" ∧
        ∃ m, fmt a = some m ∧ m ≠ "" ∧ send m = TgOutcome.delivered) :
    (processNewItems cap fmt send items st).sent = min (st.sent + items.length) cap ∧
    (processNewItems cap fmt send items st).seen =
      addSeenList st.seen ((items.take (cap - st.sent)).map (fun a => a.key)) := by
  induction items generalizing st with
  | nil =>
    refine ⟨?_, ?_⟩
    · simp only [processNewItems, List.length_nil]
      omega
    · simp [processNewItems, addSeenList]
  | cons a rest ih =>
    obtain ⟨hfa, m, hm, hme, hdel⟩ := h a (by simp)
    unfold processNewItems
    rw [if_neg (by simp [hfa])]
    by_cases hcap : cap ≤ st.sent
    · rw [if_pos hcap]
      have hse : st.sent = cap := le_antisymm hsent hcap
      refine ⟨by simp [hse], ?_⟩
      have hz : cap - st.sent = 0 := by omega
      simp [hz, addSeenList]
    · rw [if_neg hcap, hm]
      dsimp only
      rw [if_neg hme, hdel]
      rw [if_neg (by simp)]
      obtain ⟨ih1, ih2⟩ := ih ⟨addSeen st.seen a.key, st.sent + 1, true,
          st.log ++ [(m, TgOutcome.delivered)]⟩ (by dsimp only; omega)
          (fun b hb => h b (by simp [hb]))
      refine ⟨?_, ?_⟩
      · rw [ih1]
        simp only [List.length_cons]
        omega
      · rw [ih2]
        have hd : cap - st.sent = (cap - (st.sent + 1)) + 1 := by omega
        rw [hd, List.take_succ_cons, List.map_cons, addSeenList_cons]

theorem upsertByKey_map_fst_of_mem (m : List (String × Announcement)) (k : String)
    (a : Announcement) (h : m.any (fun kv => kv.1 = k)) :
    (upsertByKey m k a).map Prod.fst = m.map Prod.fst := by
  unfold upsertByKey
  rw [if_pos h, List.map_map]
  refine List.map_congr_left ?_
  intro kv _
  by_cases hk : kv.1 = k
  · simp [hk]
  · simp [hk]

theorem upsertByKey_map_fst_of_not_mem (m : List (String × Announcement)) (k : String)
    (a : Announcement) (h : ¬ m.any (fun kv => kv.1 = k)) :
    (upsertByKey m k a).map Prod.fst = m.map Prod.fst ++ [k] := by
  unfold upsertByKey
  rw [if_neg h]
  simp

theorem upsertByKey_inv (m : List (String × Announcement)) (k : String) (a : Announcement)
    (hinv : ∀ kv ∈ m, kv.1 = kv.2.key) (hk : a.key = k) :
    ∀ kv ∈ upsertByKey m k a, kv.1 = kv.2.key := by
  intro kv hkv
  unfold upsertByKey at hkv
  by_cases h : m.any (fun kv => kv.1 = k)
  · rw [if_pos h] at hkv
    obtain ⟨kv0, hkv0, hmap⟩ := List.mem_map.mp hkv
    by_cases h0 : kv0.1 = k
    · rw [if_pos h0] at hmap
      rw [← hmap]
      exact hk.symm
    · rw [if_neg h0] at hmap
      rw [← hmap]
      exact hinv kv0 hkv0
  · rw [if_neg h] at hkv
    rcases List.mem_append.mp hkv with h1 | h2
    · exact hinv kv h1
    · rw [List.mem_singleton.mp h2]
      exact hk.symm

theorem upsertByKey_keys_nodup (m : List (String × Announcement)) (k : String)
    (a : Announcement) (hnd : (m.map Prod.fst).Nodup) :
    ((upsertByKey m k a).map Prod.fst).Nodup := by
  by_cases h : m.any (fun kv => kv.1 = k)
  · rw [upsertByKey_map_fst_of_mem m k a h]
    exact hnd
  · rw [upsertByKey_map_fst_of_not_mem m k a h]
    rw [List.nodup_append]
    refine ⟨hnd, List.nodup_singleton k, ?_⟩
    intro x hx hk1
    rw [List.mem_singleton.mp hk1] at hx
    obtain ⟨kv, hkv, hfst⟩ := List.mem_map.mp hx
    exact h (List.any_eq_true.mpr ⟨kv, hkv, by simpa using hfst⟩)

theorem dedupAccum_inv (items : List Announcement) (m : List (String × Announcement))
    (h1 : ∀ kv ∈ m, kv.1 = kv.2.key) (h2 : (m.map Prod.fst).Nodup) :
    (∀ kv ∈ items.foldl (fun acc it => upsertByKey acc it.key it) m, kv.1 = kv.2.key) ∧
    ((items.foldl (fun acc it => upsertByKey acc it.key it) m).map Prod.fst).Nodup := by
  induction items generalizing m with
  | nil => exact ⟨h1, h2⟩
  | cons a rest ih =>
    simp only [List.foldl_cons]
    exact ih (upsertByKey m a.key a)
      (upsertByKey_inv m a.key a h1 rfl)
      (upsertByKey_keys_nodup m a.key a h2)

theorem dedupByKey_keys_nodup (items : List Announcement) :
    ((dedupByKey items).map (fun a => a.key)).Nodup := by
  obtain ⟨h1, h2⟩ := dedupAccum_inv items [] (by simp) (by simp)
  unfold dedupByKey
  rw [List.map_map]
  have : ((items.foldl (fun acc it => upsertByKey acc it.key it) []).map
      ((fun a => a.key) ∘ Prod.snd)) =
      ((items.foldl (fun acc it => upsertByKey acc it.key it) []).map Prod.fst) := by
    refine List.map_congr_left ?_
    intro kv hkv
    exact (h1 kv hkv).symm
  rw [this]
  exact h2

theorem findMapUpsertNe (state : StateMap) (k1 k2 : String) (v : StVal) (h : k2 ≠ k1) :
    (state.map (fun kv => if kv.1 = k1 then (k1, v) else kv)).find? (fun kv => kv.1 = k2) =
      state.find? (fun kv => kv.1 = k2) := by
  induction state with
  | nil => rfl
  | cons kv rest ih =>
    by_cases hk : kv.1 = k1
    · simp only [List.map_cons, if_pos hk]
      rw [List.find?_cons_of_neg _ (by simp only [decide_eq_true_eq]; exact fun hc => h hc.symm),
        List.find?_cons_of_neg _ (by simp only [decide_eq_true_eq]; exact fun hc => h (hc ▸ hk))]
      exact ih
    · simp only [List.map_cons, if_neg hk]
      by_cases hk2 : kv.1 = k2
      · rw [List.find?_cons_of_pos _ (by simpa using hk2),
          List.find?_cons_of_pos _ (by simpa using hk2)]
      · rw [List.find?_cons_of_neg _ (by simpa using hk2),
          List.find?_cons_of_neg _ (by simpa using hk2)]
        exact ih

theorem stateLookup_stateSet_other (state : StateMap) (k1 k2 : String) (v : StVal)
    (h : k2 ≠ k1) : stateLookup (stateSet state k1 v) k2 = stateLookup state k2 := by
  unfold stateSet stateLookup
  by_cases hany : state.any (fun kv => kv.1 = k1)
  · rw [if_pos hany, findMapUpsertNe state k1 k2 v h]
  · rw [if_neg hany, List.find?_append]
    cases hfind : state.find? (fun kv => kv.1 = k2) with
    | some kv => rfl
    | none =>
      rw [Option.none_or]
      rw [List.find?_cons_of_neg _ (by simp only [decide_eq_true_eq]; exact fun hc => h hc.symm),
        List.find?_nil]

theorem announcementKey_shape (site url title : String) :
    ∃ rest, announcementKey site url title = site ++ ":" ++ rest := by
  unfold announcementKey
  rcases hfind : (urlPathSegments url).find? pyIsdigit with _ | seg
  · rcases hlast : (urlPathSegments url).getLast? with _ | lastSeg
    · exact ⟨_, rfl⟩
    · exact ⟨_, rfl⟩
  · exact ⟨_, rfl⟩

theorem announcementKey_digit (site url title : String) (seg : List Char)
    (h : (urlPathSegments url).find? pyIsdigit = some seg) :
    announcementKey site url title = site ++ ":" ++ String.mk seg := by
  unfold announcementKey
  rw [h]

/-- Claim C10: `Announcement.key` is total and deterministic — for every
announcement it returns a string of the form `site ++ ":" ++ rest` (totality
is inherent: the embedding is a total function, the Python `try` guard never
escapes), and two announcements agreeing on `site`, `url` and `title` get the
same key whatever their `meta`. -/
theorem claim_C10 (a b : Announcement) :
    (∃ rest, a.key = a.site ++ ":" ++ rest) ∧
    (a.site = b.site → a.url = b.url → a.title = b.title → a.key = b.key) := by
  refine ⟨announcementKey_shape a.site a.url a.title, ?_⟩
  intro h1 h2 h3
  unfold Announcement.key
  rw [h1, h2, h3]

/-- Witness for C10 at a concrete pair differing only in `meta`. -/
theorem claim_C10_witness :
    (Announcement.mk "s" "T" "https://ex.be/x/9" []).key =
      (Announcement.mk "s" "T" "https://ex.be/x/9" [("location", "Liège")]).key :=
  (claim_C10 (Announcement.mk "s" "T" "https://ex.be/x/9" [])
    (Announcement.mk "s" "T" "https://ex.be/x/9" [("location", "Liège")])).2 rfl rfl rfl

/-- Claim C2 counterexample: the code's `Announcement` carries no
`explicit_id` field, so in the spec's scenario (an item whose source-native
id is 991 and whose url is `.../123/listing-991-x`) the computed key is
`src:123` — the first numeric path segment — and not `src:991` as the claim
requires. -/
theorem claim_C2_counterexample :
    (Announcement.mk "src" "Listing 991" "https://www.example.be/offers/123/listing-991-x" []).key
      = "src:123" ∧
    (Announcement.mk "src" "Listing 991" "https://www.example.be/offers/123/listing-991-x" []).key
      ≠ "src:991" := by
  refine ⟨by decide, by decide⟩

/-- Claim C2 amended: the Item type of the code has no `explicit_id`, so the
priority chain starts at the URL rules; whenever the URL path has a purely
numeric segment, the key is the site name, a colon, and the FIRST such
segment — in the spec's scenario `.../123/listing-991-x` the key ends in
`:123`. -/
theorem claim_C2_amended (site title : String) (meta : List (String × String))
    (url : String) (seg : List Char)
    (h : (urlPathSegments url).find? pyIsdigit = some seg) :
    (Announcement.mk site title url meta).key = site ++ ":" ++ String.mk seg :=
  announcementKey_digit site url title seg h

/-- Witness for the amended C2 at the spec's scenario. -/
theorem claim_C2_amended_witness :
    (Announcement.mk "src" "Listing 991" "https://www.example.be/offers/123/listing-991-x" []).key
      = "src" ++ ":" ++ String.mk ['1', '2', '3'] :=
  claim_C2_amended "src" "Listing 991" [] "https://www.example.be/offers/123/listing-991-x"
    ['1', '2', '3'] (by decide)

/-- Claim C9: `load_state` never raises (it is a total function of the file
outcome); a missing or unreadable/corrupt file and a non-object top level
yield the empty state; from an object it keeps exactly the entries whose
value is a list or a dict. -/
theorem claim_C9 (f : StateFile) (v : JValue) (kvs : List (String × JValue)) :
    (∀ kv ∈ load_state f, kv.2.isListOrDict = true) ∧
    load_state StateFile.missing = [] ∧
    load_state StateFile.unreadable = [] ∧
    (v.isObj = false → load_state (StateFile.parsed v) = []) ∧
    load_state (StateFile.parsed (JValue.obj kvs)) =
      kvs.filter (fun kv => kv.2.isListOrDict) := by
  have hfold : ∀ kvs : List (String × JValue),
      load_state (StateFile.parsed (JValue.obj kvs)) =
        kvs.filter (fun kv => kv.2.isListOrDict) := by
    intro kvs
    show kvs.foldl (fun out kv => if kv.2.isListOrDict then out ++ [kv] else out) [] = _
    rw [foldl_filter_append (fun kv => kv.2.isListOrDict) kvs []]
    rfl
  refine ⟨?_, rfl, rfl, ?_, hfold kvs⟩
  · intro kv hkv
    cases f with
    | missing => simp [load_state] at hkv
    | unreadable => simp [load_state] at hkv
    | parsed w =>
      cases w with
      | obj kvs0 =>
        rw [hfold kvs0] at hkv
        exact (List.mem_filter.mp hkv).2
      | null => simp [load_state] at hkv
      | bool b => simp [load_state] at hkv
      | num n => simp [load_state] at hkv
      | str s => simp [load_state] at hkv
      | arr xs => simp [load_state] at hkv
  · intro hv
    cases v with
    | obj kvs0 => simp [JValue.isObj] at hv
    | null => rfl
    | bool b => rfl
    | num n => rfl
    | str s => rfl
    | arr xs => rfl

/-- Witness for C9: a corrupt object mixing value shapes keeps exactly the
list- and dict-valued entries. -/
theorem claim_C9_witness :
    (∀ kv ∈ load_state (StateFile.parsed (JValue.obj
        [("cofim", JValue.arr [JValue.str "cofim:1"]), ("junk", JValue.num 3),
         ("_meta", JValue.obj []), ("bad", JValue.str "x")])),
      kv.2.isListOrDict = true) ∧
    load_state (StateFile.parsed (JValue.num 7)) = [] := by
  refine ⟨(claim_C9 (StateFile.parsed (JValue.obj
      [("cofim", JValue.arr [JValue.str "cofim:1"]), ("junk", JValue.num 3),
       ("_meta", JValue.obj []), ("bad", JValue.str "x")])) (JValue.num 7) []).1,
    (claim_C9 StateFile.missing (JValue.num 7) []).2.2.2.1 rfl⟩

/-- Claim C5 counterexample: with a page limit of 3 and page 2 empty,
`run_site` still requests page 3 (and detects the item found there): the
pages requested are `[1, 2, 3]`, not `[1, 2]` — there is no early stop in the
Runner. -/
theorem claim_C5_counterexample :
    (run_site 40 "s"
        (fun p => if p = 1 then some [Announcement.mk "s" "Item one" "https://ex.be/items/1" []]
          else if p = 2 then some []
          else some [Announcement.mk "s" "Item three" "https://ex.be/items/3" []])
        (fun a => some a.title) 3 [] "B" "C" (fun _ _ => PostResult.ok)).pages = [1, 2, 3] ∧
    (run_site 40 "s"
        (fun p => if p = 1 then some [Announcement.mk "s" "Item one" "https://ex.be/items/1" []]
          else if p = 2 then some []
          else some [Announcement.mk "s" "Item three" "https://ex.be/items/3" []])
        (fun a => some a.title) 3 [] "B" "C" (fun _ _ => PostResult.ok)).pages ≠ [1, 2] ∧
    (run_site 40 "s"
        (fun p => if p = 1 then some [Announcement.mk "s" "Item one" "https://ex.be/items/1" []]
          else if p = 2 then some []
          else some [Announcement.mk "s" "Item three" "https://ex.be/items/3" []])
        (fun a => some a.title) 3 [] "B" "C" (fun _ _ => PostResult.ok)).newDetected = 2 := by
  refine ⟨by decide, by decide, by decide⟩

/-- Claim C5 amended: `run_site` never stops paging early — for every input
it requests exactly pages 1 through `maxPages`, in order, whether or not some
page yields zero items (the empty-page early stop exists only inside the
WE-Transmission direct fetcher, not in the Runner). -/
theorem claim_C5_amended (cap : Nat) (site : String)
    (fetch : Nat → Option (List Announcement)) (fmt : Announcement → Option String)
    (maxPages : Nat) (state : StateMap) (botToken chatId : String)
    (net : String → Nat → PostResult) :
    (run_site cap site fetch fmt maxPages state botToken chatId net).pages =
      List.range' 1 maxPages := by
  unfold run_site
  by_cases h : (runSiteNewItems site fetch maxPages state).isEmpty
  · rw [if_pos h]
    exact fetchPagesLoop_pages fetch 1 maxPages
  · rw [if_neg h]
    exact fetchPagesLoop_pages fetch 1 maxPages

/-- Claim C6 counterexample: the haystack of `forbidden_hit` is not the field
set the claim names — it also reads `branche`, `region` and `omzet`.  An item
whose only denylisted text sits in `branche` is matched by the source
function but not by the claim's field set. -/
theorem claim_C6_counterexample :
    forbidden_hit (Announcement.mk "x" "Metaalbewerking bedrijf" "https://ex.be/a/1"
        [("branche", "restaurant")]) = "restaurant" ∧
    forbidden_hit_specFields (Announcement.mk "x" "Metaalbewerking bedrijf" "https://ex.be/a/1"
        [("branche", "restaurant")]) = "" := by
  refine ⟨by decide, by decide⟩

/-- Claim C6 amended: `forbidden_hit` is pure and reads exactly title plus
the attributes location, price, teaser, type, sector, branche, region,
description, turnover and omzet: announcements agreeing on those fields get
the same verdict for every denylist; the result is the first normalized
denylist term occurring as a substring of the normalized haystack (case and
diacritics folded by `norm_cmp` on both sides); an empty denylist never
matches. -/
theorem claim_C6_amended :
    (∀ ann : Announcement, forbidden_hit_with [] ann = "") ∧
    (∀ ws : List String, ∀ a b : Announcement, a.title = b.title →
      (∀ f ∈ forbiddenFieldNames, annMetaGet a.meta f = annMetaGet b.meta f) →
      forbidden_hit_with ws a = forbidden_hit_with ws b) ∧
    (∀ ws : List String, ∀ a : Announcement,
      forbidden_hit_with ws a =
        (((ws.filter (fun w => w ≠ "" && String.mk (trimChars w.data) ≠ "")).map norm_cmp).find?
            (hitPred (norm_cmp (forbiddenHay a)))).getD "") ∧
    (∀ a : Announcement, forbidden_hit a = forbidden_hit_with FORBIDDEN_WORDS a) := by
  have hchar : ∀ ws : List String, ∀ a : Announcement,
      forbidden_hit_with ws a =
        (((ws.filter (fun w => w ≠ "" && String.mk (trimChars w.data) ≠ "")).map norm_cmp).find?
            (hitPred (norm_cmp (forbiddenHay a)))).getD "" := by
    intro ws a
    unfold forbidden_hit_with
    by_cases h : ((ws.filter (fun w => w ≠ "" && String.mk (trimChars w.data) ≠ "")).map norm_cmp) = []
    · rw [if_pos h, h]
      rfl
    · rw [if_neg h]
      exact firstHit_eq_find _ _
  refine ⟨fun ann => rfl, ?_, hchar, fun a => rfl⟩
  intro ws a b ht hf
  have hhay : forbiddenHay a = forbiddenHay b := by
    unfold forbiddenHay
    rw [ht,
      hf "location" (by simp [forbiddenFieldNames]),
      hf "price" (by simp [forbiddenFieldNames]),
      hf "teaser" (by simp [forbiddenFieldNames]),
      hf "type" (by simp [forbiddenFieldNames]),
      hf "sector" (by simp [forbiddenFieldNames]),
      hf "branche" (by simp [forbiddenFieldNames]),
      hf "region" (by simp [forbiddenFieldNames]),
      hf "description" (by simp [forbiddenFieldNames]),
      hf "turnover" (by simp [forbiddenFieldNames]),
      hf "omzet" (by simp [forbiddenFieldNames])]
  rw [hchar ws a, hchar ws b, hhay]

/-- Witness for the amended C6: two announcements sharing the read fields but
nothing else get the same verdict; diacritics and case fold ("CAFÉ-RESTAURANT"
hits "restaurant"); the empty denylist never matches. -/
theorem claim_C6_amended_witness :
    forbidden_hit_with ["restaurant"]
        (Announcement.mk "x" "Petit CAFÉ-RESTAURANT à vendre" "https://a.be/1" [("extra", "q")]) =
      forbidden_hit_with ["restaurant"]
        (Announcement.mk "y" "Petit CAFÉ-RESTAURANT à vendre" "https://b.be/2" [("other", "r")]) ∧
    forbidden_hit_with []
      (Announcement.mk "x" "restaurant" "https://a.be/1" []) = "" := by
  refine ⟨claim_C6_amended.2.1 ["restaurant"] _ _ rfl (by decide), claim_C6_amended.1 _⟩

/-- Claim C8: seen-set monotonicity — after any run of either runner, the
persisted seen-set of the processed source contains every key it contained
before; no operation ever removes an identity key.  (For the direct runner
the source name is a real site name, not the reserved `_meta` slot.) -/
theorem claim_C8 (cap : Nat) (site : String) (fetch : Nat → Option (List Announcement))
    (fetchItems : MetaObj → MetaObj × Option (List Announcement))
    (fmt : Announcement → Option String) (maxPages : Nat) (state : StateMap)
    (botToken chatId : String) (net : String → Nat → PostResult) (k : String) :
    (k ∈ seenKeysOf state site →
      k ∈ seenKeysOf (run_site cap site fetch fmt maxPages state botToken chatId net).state site) ∧
    (site ≠ META_KEY → k ∈ seenKeysOf state site →
      k ∈ seenKeysOf (run_site_direct cap site fetchItems fmt state botToken chatId net).state site) := by
  constructor
  · intro hk
    unfold run_site
    by_cases h : (runSiteNewItems site fetch maxPages state).isEmpty
    · rw [if_pos h]
      exact hk
    · rw [if_neg h]
      dsimp only
      rw [seenKeysOf_stateSet_self]
      exact processNewItems_seen_superset cap fmt _ _ ⟨seenKeysOf state site, 0, false, []⟩ k hk
  · intro hns hk
    unfold run_site_direct
    dsimp only
    have hk1 : k ∈ seenKeysOf
        (if (fetchItems (metaObjOf state)).1 = metaObjOf state then state
         else stateSet state META_KEY (StVal.metaV (fetchItems (metaObjOf state)).1)) site := by
      by_cases hc : (fetchItems (metaObjOf state)).1 = metaObjOf state
      · rw [if_pos hc]
        exact hk
      · rw [if_neg hc]
        unfold seenKeysOf
        rw [stateLookup_stateSet_other state META_KEY site _ hns]
        exact hk
    rcases h2 : (fetchItems (metaObjOf state)).2 with _ | items
    · exact hk1
    · dsimp only
      by_cases h3 : ((dedupByKey items).filter
          (fun a => !((seenKeysOf state site).contains a.key))).isEmpty
      · rw [if_pos h3]
        exact hk1
      · rw [if_neg h3]
        dsimp only
        rw [seenKeysOf_stateSet_self]
        exact processNewItems_seen_superset cap fmt _ _ ⟨seenKeysOf state site, 0, false, []⟩ k hk

/-- Witness for C8 on a concrete run of each runner starting from a state
that already contains a key. -/
theorem claim_C8_witness :
    "s:0" ∈ seenKeysOf (run_site 40 "s"
        (fun _ => some [Announcement.mk "s" "Fresh item" "https://ex.be/items/5" []])
        (fun a => some a.title) 1 [("s", StVal.keys ["s:0"])] "B" "C"
        (fun _ _ => PostResult.ok)).state "s" ∧
    "s:0" ∈ seenKeysOf (run_site_direct 40 "s"
        (fun m => (m, some [Announcement.mk "s" "Fresh item" "https://ex.be/items/5" []]))
        (fun a => some a.title) [("s", StVal.keys ["s:0"])] "B" "C"
        (fun _ _ => PostResult.ok)).state "s" := by
  refine ⟨(claim_C8 40 "s" (fun _ => some [Announcement.mk "s" "Fresh item" "https://ex.be/items/5" []])
      (fun m => (m, some [Announcement.mk "s" "Fresh item" "https://ex.be/items/5" []]))
      (fun a => some a.title) 1 [("s", StVal.keys ["s:0"])] "B" "C"
      (fun _ _ => PostResult.ok) "s:0").1 (by decide),
    (claim_C8 40 "s" (fun _ => some [Announcement.mk "s" "Fresh item" "https://ex.be/items/5" []])
      (fun m => (m, some [Announcement.mk "s" "Fresh item" "https://ex.be/items/5" []]))
      (fun a => some a.title) 1 [("s", StVal.keys ["s:0"])] "B" "C"
      (fun _ _ => PostResult.ok) "s:0").2 (by decide) (by decide)⟩

theorem run_site_eq_of_empty (cap : Nat) (site : String)
    (fetch : Nat → Option (List Announcement)) (fmt : Announcement → Option String)
    (maxPages : Nat) (state : StateMap) (botToken chatId : String)
    (net : String → Nat → PostResult)
    (h : runSiteNewItems site fetch maxPages state = []) :
    run_site cap site fetch fmt maxPages state botToken chatId net =
      ⟨0, 0, false, state, [], (runSiteFetched fetch maxPages).2⟩ := by
  simp only [run_site, h]
  rfl

theorem run_site_eq_of_nonempty (cap : Nat) (site : String)
    (fetch : Nat → Option (List Announcement)) (fmt : Announcement → Option String)
    (maxPages : Nat) (state : StateMap) (botToken chatId : String)
    (net : String → Nat → PostResult)
    (h : ¬ (runSiteNewItems site fetch maxPages state).isEmpty) :
    run_site cap site fetch fmt maxPages state botToken chatId net =
      ⟨(runSiteNewItems site fetch maxPages state).length,
       (processNewItems cap fmt (fun m => send_telegram botToken chatId (net m))
          (List.insertionSort urlLe (runSiteNewItems site fetch maxPages state))
          ⟨seenKeysOf state site, 0, false, []⟩).sent,
       (processNewItems cap fmt (fun m => send_telegram botToken chatId (net m))
          (List.insertionSort urlLe (runSiteNewItems site fetch maxPages state))
          ⟨seenKeysOf state site, 0, false, []⟩).changed,
       stateSet state site (StVal.keys
         (processNewItems cap fmt (fun m => send_telegram botToken chatId (net m))
            (List.insertionSort urlLe (runSiteNewItems site fetch maxPages state))
            ⟨seenKeysOf state site, 0, false, []⟩).seen),
       (processNewItems cap fmt (fun m => send_telegram botToken chatId (net m))
          (List.insertionSort urlLe (runSiteNewItems site fetch maxPages state))
          ⟨seenKeysOf state site, 0, false, []⟩).log,
       (runSiteFetched fetch maxPages).2⟩ := by
  simp only [run_site]
  rw [if_neg h]

/-- Claim C4: idempotence — when a run leaves every fetched (deduplicated)
item's key in the persisted seen-set (no cap cutoff, no raising send), a
second run over the same fetched items starting from the resulting state
sends nothing, logs no send, reports `changed = false`, and leaves the state
exactly as it was. -/
theorem claim_C4 (cap : Nat) (site : String) (fetch : Nat → Option (List Announcement))
    (fmt : Announcement → Option String) (maxPages : Nat) (state : StateMap)
    (botToken chatId : String) (net : String → Nat → PostResult)
    (hall : ∀ a ∈ dedupByKey (runSiteFetched fetch maxPages).1,
      a.key ∈ seenKeysOf
        (run_site cap site fetch fmt maxPages state botToken chatId net).state site) :
    (run_site cap site fetch fmt maxPages
        (run_site cap site fetch fmt maxPages state botToken chatId net).state
        botToken chatId net).sent = 0 ∧
    (run_site cap site fetch fmt maxPages
        (run_site cap site fetch fmt maxPages state botToken chatId net).state
        botToken chatId net).changed = false ∧
    (run_site cap site fetch fmt maxPages
        (run_site cap site fetch fmt maxPages state botToken chatId net).state
        botToken chatId net).log = [] ∧
    (run_site cap site fetch fmt maxPages
        (run_site cap site fetch fmt maxPages state botToken chatId net).state
        botToken chatId net).state =
      (run_site cap site fetch fmt maxPages state botToken chatId net).state := by
  have hempty : runSiteNewItems site fetch maxPages
      (run_site cap site fetch fmt maxPages state botToken chatId net).state = [] := by
    unfold runSiteNewItems
    rw [List.filter_eq_nil_iff]
    intro a ha
    simp only [Bool.not_eq_true', Bool.not_eq_false]
    simpa using hall a ha
  rw [run_site_eq_of_empty cap site fetch fmt maxPages _ botToken chatId net hempty]
  exact ⟨rfl, rfl, rfl, rfl⟩

/-- Witness for C4: a concrete complete first run followed by a second run
over the same items. -/
theorem claim_C4_witness :
    (run_site 40 "s" (fun p => if p = 1
          then some [Announcement.mk "s" "Item five" "https://ex.be/items/5" []] else some [])
        (fun a => some a.title) 2
        (run_site 40 "s" (fun p => if p = 1
            then some [Announcement.mk "s" "Item five" "https://ex.be/items/5" []] else some [])
          (fun a => some a.title) 2 [] "B" "C" (fun _ _ => PostResult.ok)).state
        "B" "C" (fun _ _ => PostResult.ok)).sent = 0 ∧
    (run_site 40 "s" (fun p => if p = 1
          then some [Announcement.mk "s" "Item five" "https://ex.be/items/5" []] else some [])
        (fun a => some a.title) 2
        (run_site 40 "s" (fun p => if p = 1
            then some [Announcement.mk "s" "Item five" "https://ex.be/items/5" []] else some [])
          (fun a => some a.title) 2 [] "B" "C" (fun _ _ => PostResult.ok)).state
        "B" "C" (fun _ _ => PostResult.ok)).changed = false := by
  have h := claim_C4 40 "s" (fun p => if p = 1
      then some [Announcement.mk "s" "Item five" "https://ex.be/items/5" []] else some [])
    (fun a => some a.title) 2 [] "B" "C" (fun _ _ => PostResult.ok) (by decide)
  exact ⟨h.1, h.2.1⟩

theorem runSiteNewItems_key_nodup (site : String) (fetch : Nat → Option (List Announcement))
    (maxPages : Nat) (state : StateMap) :
    ((runSiteNewItems site fetch maxPages state).map (fun a => a.key)).Nodup := by
  unfold runSiteNewItems
  exact List.Nodup.sublist (List.Sublist.map _ (List.filter_sublist _)) (dedupByKey_keys_nodup _)

theorem runSiteNewItems_not_seen (site : String) (fetch : Nat → Option (List Announcement))
    (maxPages : Nat) (state : StateMap) :
    ∀ a ∈ runSiteNewItems site fetch maxPages state, a.key ∉ seenKeysOf state site := by
  unfold runSiteNewItems
  intro a ha
  have h := (List.mem_filter.mp ha).2
  simpa using h

/-- Claim C3: cap enforcement — when every new item passes the filter,
formats to a nonempty message, and delivers successfully, and the cap `cap`
is below the number `k` of new items, the run sends exactly `cap`
notifications and exactly `k - cap` of the new items' keys are absent from
the persisted seen-set. -/
theorem claim_C3 (cap : Nat) (site : String) (fetch : Nat → Option (List Announcement))
    (fmt : Announcement → Option String) (maxPages : Nat) (state : StateMap)
    (botToken chatId : String) (net : String → Nat → PostResult)
    (hcap : cap < (runSiteNewItems site fetch maxPages state).length)
    (hgood : ∀ a ∈ runSiteNewItems site fetch maxPages state,
      forbidden_hit a = "" ∧ ∃ m, fmt a = some m ∧ m ≠ "" ∧
        send_telegram botToken chatId (net m) = TgOutcome.delivered) :
    (run_site cap site fetch fmt maxPages state botToken chatId net).sent = cap ∧
    (runSiteNewItems site fetch maxPages state).countP (fun a =>
        !((seenKeysOf (run_site cap site fetch fmt maxPages state botToken chatId net).state
            site).contains a.key)) =
      (runSiteNewItems site fetch maxPages state).length - cap := by
  have hne : ¬ (runSiteNewItems site fetch maxPages state).isEmpty := by
    rw [List.isEmpty_iff]
    intro h0
    rw [h0] at hcap
    simp at hcap
  rw [run_site_eq_of_nonempty cap site fetch fmt maxPages state botToken chatId net hne]
  set new := runSiteNewItems site fetch maxPages state with hnewdef
  set sorted := List.insertionSort urlLe new with hsorteddef
  have hperm : sorted.Perm new := List.perm_insertionSort urlLe new
  have hlen : sorted.length = new.length := hperm.length_eq
  obtain ⟨hsent, hseen⟩ := processNewItems_uniform cap fmt
    (fun m => send_telegram botToken chatId (net m)) sorted
    ⟨seenKeysOf state site, 0, false, []⟩ (by dsimp only; omega)
    (fun a ha => hgood a (hperm.subset ha))
  have hndk : (sorted.map (fun a => a.key)).Nodup :=
    (List.Perm.nodup_iff (hperm.map (fun a => a.key))).mpr
      (runSiteNewItems_key_nodup site fetch maxPages state)
  have hnd : sorted.Nodup := hndk.of_map
  have hnotseen : ∀ a ∈ sorted, a.key ∉ seenKeysOf state site :=
    fun a ha => runSiteNewItems_not_seen site fetch maxPages state a (hperm.subset ha)
  constructor
  · dsimp only
    rw [hsent]
    dsimp only
    omega
  · dsimp only
    rw [seenKeysOf_stateSet_self, hseen]
    dsimp only
    rw [← hperm.countP_eq]
    set fin := addSeenList (seenKeysOf state site)
      ((sorted.take (cap - 0)).map (fun a => a.key)) with hfindef
    set q : Announcement → Bool := fun a => !(fin.contains a.key) with hqdef
    have htd : cap - 0 = cap := rfl
    have h1 : (sorted.take cap).countP q = 0 := by
      rw [List.countP_eq_zero]
      intro a ha
      have hmem : a.key ∈ fin := by
        rw [hfindef]
        exact mem_addSeenList.mpr (Or.inr (by rw [htd]; exact List.mem_map_of_mem _ ha))
      simp [hqdef, hmem]
    have h2 : (sorted.drop cap).countP q = (sorted.drop cap).length := by
      rw [List.countP_eq_length]
      intro a ha
      have hnin : a.key ∉ fin := by
        intro hmem
        rw [hfindef] at hmem
        rcases mem_addSeenList.mp hmem with hs | hm
        · exact hnotseen a (List.drop_subset _ _ ha) hs
        · rw [htd] at hm
          obtain ⟨b, hb, hbk⟩ := List.mem_map.mp hm
          have hba : b = a := List.inj_on_of_nodup_map hndk
            (List.take_subset _ _ hb) (List.drop_subset _ _ ha) hbk
          rw [hba] at hb
          exact List.disjoint_take_drop hnd (le_refl cap) hb ha
      simp [hqdef, hnin]
    calc sorted.countP q
        = ((sorted.take cap) ++ (sorted.drop cap)).countP q := by
          rw [List.take_append_drop]
      _ = (sorted.take cap).countP q + (sorted.drop cap).countP q := List.countP_append _ _ _
      _ = (sorted.drop cap).length := by rw [h1, h2, Nat.zero_add]
      _ = new.length - cap := by rw [List.length_drop, hlen]

/-- Witness for C3: three new items, cap 2, everything deliverable — exactly
2 sent, exactly 1 key left out of the seen-set. -/
theorem claim_C3_witness :
    (run_site 2 "s"
        (fun _ => some [Announcement.mk "s" "One" "https://ex.be/items/1" [],
          Announcement.mk "s" "Two" "https://ex.be/items/2" [],
          Announcement.mk "s" "Three" "https://ex.be/items/3" []])
        (fun a => some a.title) 1 [] "B" "C" (fun _ _ => PostResult.ok)).sent = 2 ∧
    (runSiteNewItems "s"
        (fun _ => some [Announcement.mk "s" "One" "https://ex.be/items/1" [],
          Announcement.mk "s" "Two" "https://ex.be/items/2" [],
          Announcement.mk "s" "Three" "https://ex.be/items/3" []]) 1 []).countP (fun a =>
        !((seenKeysOf (run_site 2 "s"
            (fun _ => some [Announcement.mk "s" "One" "https://ex.be/items/1" [],
              Announcement.mk "s" "Two" "https://ex.be/items/2" [],
              Announcement.mk "s" "Three" "https://ex.be/items/3" []])
            (fun a => some a.title) 1 [] "B" "C" (fun _ _ => PostResult.ok)).state
          "s").contains a.key)) = 1 := by
  have h := claim_C3 2 "s"
    (fun _ => some [Announcement.mk "s" "One" "https://ex.be/items/1" [],
      Announcement.mk "s" "Two" "https://ex.be/items/2" [],
      Announcement.mk "s" "Three" "https://ex.be/items/3" []])
    (fun a => some a.title) 1 [] "B" "C" (fun _ _ => PostResult.ok)
    (by decide)
    (by
      intro a ha
      refine ⟨?_, a.title, rfl, ?_, ?_⟩
      · fin_cases ha <;> decide
      · fin_cases ha <;> decide
      · exact (by decide :
          send_telegram "B" "C" (fun _ => PostResult.ok) = TgOutcome.delivered))
  refine ⟨h.1, ?_⟩
  rw [h.2]
  decide

/-- Claim C1 counterexample: delivery fails (the Telegram API returns a
non-OK 500 response on every attempt, so `send_telegram` ends in
`failedReturn`, not `delivered`), yet the runner marks the item's key seen
and counts it as sent — the claim says a failed delivery leaves the key
unseen. -/
theorem claim_C1_counterexample :
    (run_site 40 "s" (fun _ => some [Announcement.mk "s" "Nice title" "https://ex.be/items/7" []])
        (fun _ => some "msg") 1 [] "B" "C" (fun _ _ => PostResult.fail 500 0)).log =
      [("msg", TgOutcome.failedReturn)] ∧
    "s:7" ∈ seenKeysOf (run_site 40 "s"
        (fun _ => some [Announcement.mk "s" "Nice title" "https://ex.be/items/7" []])
        (fun _ => some "msg") 1 [] "B" "C" (fun _ _ => PostResult.fail 500 0)).state "s" ∧
    (run_site 40 "s" (fun _ => some [Announcement.mk "s" "Nice title" "https://ex.be/items/7" []])
        (fun _ => some "msg") 1 [] "B" "C" (fun _ _ => PostResult.fail 500 0)).sent = 1 := by
  refine ⟨by decide, by decide, by decide⟩

theorem insertionSort_pair (a b : Announcement) (h : urlLe a b) :
    List.insertionSort urlLe [a, b] = [a, b] := by
  simp [List.insertionSort, List.orderedInsert, h]

theorem processNewItems_nil (cap : Nat) (fmt : Announcement → Option String)
    (send : String → TgOutcome) (st : LoopState) :
    processNewItems cap fmt send [] st = st := rfl

theorem processNewItems_cons_send (cap : Nat) (fmt : Announcement → Option String)
    (send : String → TgOutcome) (a : Announcement) (rest : List Announcement)
    (st : LoopState) (m : String) (hfa : forbidden_hit a = "") (hcap : st.sent < cap)
    (hm : fmt a = some m) (hne : m ≠ "") :
    processNewItems cap fmt send (a :: rest) st =
      if send m = TgOutcome.raised then
        processNewItems cap fmt send rest ⟨st.seen, st.sent, st.changed, st.log ++ [(m, send m)]⟩
      else
        processNewItems cap fmt send rest
          ⟨addSeen st.seen a.key, st.sent + 1, true, st.log ++ [(m, send m)]⟩ := by
  conv_lhs => rw [processNewItems]
  rw [if_neg (by rw [hfa]; simp), if_neg (by omega), hm]
  dsimp only
  rw [if_neg hne]

/-- Claim C1 amended: in the runner, an item's key is withheld from the
seen-set only when `send_telegram` raises (a transport exception escaping
`session.post`); any send that returns normally — including a delivery
failure swallowed inside `send_telegram` (non-OK response or exhausted 429
retries) — marks the item seen and counts it as sent.  In both cases
processing continues with the next item, and a message is actually delivered
only when the outcome is `delivered`. -/
theorem claim_C1_amended (cap : Nat) (site : String)
    (fetch : Nat → Option (List Announcement)) (fmt : Announcement → Option String)
    (maxPages : Nat) (state : StateMap) (botToken chatId : String)
    (net : String → Nat → PostResult) (a b : Announcement) (ma mb : String)
    (hnew : runSiteNewItems site fetch maxPages state = [a, b])
    (hu : urlLe a b) (hk : a.key ≠ b.key)
    (hfa : forbidden_hit a = "") (hfb : forbidden_hit b = "")
    (hma : fmt a = some ma) (hmane : ma ≠ "")
    (hmb : fmt b = some mb) (hmbne : mb ≠ "") (hmamb : ma ≠ mb)
    (hcap : 2 ≤ cap)
    (hdelb : send_telegram botToken chatId (net mb) = TgOutcome.delivered) :
    (send_telegram botToken chatId (net ma) = TgOutcome.raised →
      a.key ∉ seenKeysOf
        (run_site cap site fetch fmt maxPages state botToken chatId net).state site ∧
      b.key ∈ seenKeysOf
        (run_site cap site fetch fmt maxPages state botToken chatId net).state site ∧
      (run_site cap site fetch fmt maxPages state botToken chatId net).sent = 1 ∧
      (run_site cap site fetch fmt maxPages state botToken chatId net).log =
        [(ma, TgOutcome.raised), (mb, TgOutcome.delivered)]) ∧
    (send_telegram botToken chatId (net ma) ≠ TgOutcome.raised →
      a.key ∈ seenKeysOf
        (run_site cap site fetch fmt maxPages state botToken chatId net).state site ∧
      b.key ∈ seenKeysOf
        (run_site cap site fetch fmt maxPages state botToken chatId net).state site ∧
      (run_site cap site fetch fmt maxPages state botToken chatId net).sent = 2 ∧
      (run_site cap site fetch fmt maxPages state botToken chatId net).log =
        [(ma, send_telegram botToken chatId (net ma)), (mb, TgOutcome.delivered)]) ∧
    ((ma, TgOutcome.delivered) ∈
        (run_site cap site fetch fmt maxPages state botToken chatId net).log ↔
      send_telegram botToken chatId (net ma) = TgOutcome.delivered) := by
  have hne : ¬ (runSiteNewItems site fetch maxPages state).isEmpty := by
    rw [hnew]; simp
  have hans : a.key ∉ seenKeysOf state site :=
    runSiteNewItems_not_seen site fetch maxPages state a (by rw [hnew]; simp)
  rw [run_site_eq_of_nonempty cap site fetch fmt maxPages state botToken chatId net hne, hnew,
    insertionSort_pair a b hu]
  rw [processNewItems_cons_send cap fmt (fun m => send_telegram botToken chatId (net m)) a [b]
    ⟨seenKeysOf state site, 0, false, []⟩ ma hfa (by dsimp only; omega) hma hmane]
  by_cases hA : send_telegram botToken chatId (net ma) = TgOutcome.raised
  · rw [if_pos hA]
    rw [processNewItems_cons_send cap fmt (fun m => send_telegram botToken chatId (net m)) b []
      ⟨seenKeysOf state site, 0, false, [] ++ [(ma, send_telegram botToken chatId (net ma))]⟩
      mb hfb (by dsimp only; omega) hmb hmbne]
    rw [if_neg (by rw [hdelb]; simp), processNewItems_nil]
    dsimp only
    rw [seenKeysOf_stateSet_self]
    refine ⟨fun _ => ⟨?_, ?_, rfl, ?_⟩, fun h2 => absurd hA h2, ?_⟩
    · intro hmem
      rcases mem_addSeen.mp hmem with h | h
      · exact hans h
      · exact hk h
    · exact mem_addSeen.mpr (Or.inr rfl)
    · simp [hA, hdelb]
    · rw [hA, hdelb]
      simp [hmamb, hA]
  · rw [if_neg hA]
    rw [processNewItems_cons_send cap fmt (fun m => send_telegram botToken chatId (net m)) b []
      ⟨addSeen (seenKeysOf state site) a.key, 0 + 1, true,
        [] ++ [(ma, send_telegram botToken chatId (net ma))]⟩
      mb hfb (by dsimp only; omega) hmb hmbne]
    rw [if_neg (by rw [hdelb]; simp), processNewItems_nil]
    dsimp only
    rw [seenKeysOf_stateSet_self]
    refine ⟨fun h2 => absurd h2 hA, fun _ => ⟨?_, ?_, rfl, ?_⟩, ?_⟩
    · exact mem_addSeen.mpr (Or.inl (mem_addSeen.mpr (Or.inr rfl)))
    · exact mem_addSeen.mpr (Or.inr rfl)
    · simp [hdelb]
    · rw [hdelb]
      simp [hmamb, eq_comm]

/-- Witness for the amended C1: item A's send raises (network exception), so
its key is retried next run; item B is still processed and delivered. -/
theorem claim_C1_amended_witness :
    ¬ ("s:1" ∈ seenKeysOf (run_site 40 "s"
        (fun _ => some [Announcement.mk "s" "Msg A" "https://ex.be/items/1" [],
          Announcement.mk "s" "Msg B" "https://ex.be/items/2" []])
        (fun x => some x.title) 1 [] "B" "C"
        (fun m _ => if m = "Msg A" then PostResult.exn else PostResult.ok)).state "s") ∧
    "s:2" ∈ seenKeysOf (run_site 40 "s"
        (fun _ => some [Announcement.mk "s" "Msg A" "https://ex.be/items/1" [],
          Announcement.mk "s" "Msg B" "https://ex.be/items/2" []])
        (fun x => some x.title) 1 [] "B" "C"
        (fun m _ => if m = "Msg A" then PostResult.exn else PostResult.ok)).state "s" ∧
    (run_site 40 "s"
        (fun _ => some [Announcement.mk "s" "Msg A" "https://ex.be/items/1" [],
          Announcement.mk "s" "Msg B" "https://ex.be/items/2" []])
        (fun x => some x.title) 1 [] "B" "C"
        (fun m _ => if m = "Msg A" then PostResult.exn else PostResult.ok)).sent = 1 ∧
    (run_site 40 "s"
        (fun _ => some [Announcement.mk "s" "Msg A" "https://ex.be/items/1" [],
          Announcement.mk "s" "Msg B" "https://ex.be/items/2" []])
        (fun x => some x.title) 1 [] "B" "C"
        (fun m _ => if m = "Msg A" then PostResult.exn else PostResult.ok)).log =
      [("Msg A", TgOutcome.raised), ("Msg B", TgOutcome.delivered)] := by
  have h := claim_C1_amended 40 "s"
    (fun _ => some [Announcement.mk "s" "Msg A" "https://ex.be/items/1" [],
      Announcement.mk "s" "Msg B" "https://ex.be/items/2" []])
    (fun x => some x.title) 1 [] "B" "C"
    (fun m _ => if m = "Msg A" then PostResult.exn else PostResult.ok)
    (Announcement.mk "s" "Msg A" "https://ex.be/items/1" [])
    (Announcement.mk "s" "Msg B" "https://ex.be/items/2" [])
    "Msg A" "Msg B"
    (by decide) (by decide) (by decide) (by decide) (by decide) rfl (by decide) rfl
    (by decide) (by decide) (by decide)
    (by exact (by decide : send_telegram "B" "C"
      (fun _ => if ("Msg B" : String) = "Msg A" then PostResult.exn else PostResult.ok) =
        TgOutcome.delivered))
  exact h.1 (by exact (by decide : send_telegram "B" "C"
    (fun _ => if ("Msg A" : String) = "Msg A" then PostResult.exn else PostResult.ok) =
      TgOutcome.raised))

theorem btkProbeStep_snd (probe : Int → ProbeResult) (acc : List Announcement × Int) (i : Int) :
    (btkProbeStep probe acc i).2 = max acc.2 i := by
  unfold btkProbeStep
  cases h : fetch_btk_detail_by_id (probe i) with
  | error e => rfl
  | ok o => cases o <;> rfl

theorem btkFold_items (probe : Int → ProbeResult) (l : List Int)
    (accL : List Announcement) (accH : Int) :
    (l.foldl (btkProbeStep probe) (accL, accH)).1 =
      accL ++ l.filterMap (btkProbeFound probe) := by
  induction l generalizing accL accH with
  | nil => simp
  | cons i rest ih =>
    rw [List.foldl_cons, List.filterMap_cons]
    cases h : fetch_btk_detail_by_id (probe i) with
    | error e =>
      have hstep : btkProbeStep probe (accL, accH) i = (accL, max accH i) := by
        unfold btkProbeStep
        rw [h]
      have hfound : btkProbeFound probe i = none := by
        unfold btkProbeFound
        rw [h]
      rw [hstep, hfound, ih]
    | ok o =>
      cases o with
      | none =>
        have hstep : btkProbeStep probe (accL, accH) i = (accL, max accH i) := by
          unfold btkProbeStep
          rw [h]
        have hfound : btkProbeFound probe i = none := by
          unfold btkProbeFound
          rw [h]
        rw [hstep, hfound, ih]
      | some a =>
        have hstep : btkProbeStep probe (accL, accH) i = (accL ++ [a], max accH i) := by
          unfold btkProbeStep
          rw [h]
        have hfound : btkProbeFound probe i = some a := by
          unfold btkProbeFound
          rw [h]
        rw [hstep, hfound, ih]
        simp

theorem btkFold_snd_le (probe : Int → ProbeResult) (l : List Int)
    (acc : List Announcement × Int) :
    acc.2 ≤ (l.foldl (btkProbeStep probe) acc).2 := by
  induction l generalizing acc with
  | nil => exact le_refl _
  | cons i rest ih =>
    rw [List.foldl_cons]
    refine le_trans ?_ (ih (btkProbeStep probe acc i))
    rw [btkProbeStep_snd]
    exact le_max_left _ _

theorem btkFold_mem_le (probe : Int → ProbeResult) (l : List Int)
    (acc : List Announcement × Int) :
    ∀ i ∈ l, i ≤ (l.foldl (btkProbeStep probe) acc).2 := by
  induction l generalizing acc with
  | nil => intro i hi; simp at hi
  | cons j rest ih =>
    intro i hi
    rw [List.foldl_cons]
    rcases List.mem_cons.mp hi with rfl | hrest
    · refine le_trans ?_ (btkFold_snd_le probe rest (btkProbeStep probe acc i))
      rw [btkProbeStep_snd]
      exact le_max_right _ _
    · exact ih (btkProbeStep probe acc j) i hrest

theorem btkMetaGet_btkMetaSet_self (m : BtkMeta) (k : String) (v : Int) :
    btkMetaGet (btkMetaSet m k v) k = v := by
  unfold btkMetaSet btkMetaGet
  by_cases h : m.any (fun kv => kv.1 = k)
  · rw [if_pos h]
    induction m with
    | nil => simp at h
    | cons kv rest ih =>
      by_cases hk : kv.1 = k
      · simp [hk]
      · simp only [List.any_cons, hk, decide_False, Bool.false_or] at h
        simp only [List.map_cons, if_neg hk]
        rw [List.find?_cons_of_neg _ (by simpa using hk)]
        exact ih h
  · rw [if_neg h]
    induction m with
    | nil => simp
    | cons kv rest ih =>
      simp only [List.any_cons, Bool.or_eq_true] at h
      push_neg at h
      simp only [List.cons_append]
      rw [List.find?_cons_of_neg _ (by simpa using h.1)]
      exact ih (by simpa using h.2)

/-- Claim C7: the sequential-ID fallback.  Seeding: with extracted IDs and no
recorded `last_id` (0 or missing), only the maximum is recorded and no item
is produced.  Subsequent run with a larger maximum: exactly the IDs from the
recorded maximum plus one up to the new maximum are probed, truncated to the
`BTK_MAX_PROBE_PER_RUN` budget; the items are those of probes returning an
announcement; the recorded maximum afterwards is at least every probed ID
(whatever each probe's outcome) and never decreases.  A 404 (or non-ok)
probe response yields no listing. -/
theorem claim_C7 (homeIds listIds : List Int) (probe : Int → ProbeResult) (meta : BtkMeta)
    (okFlag : Bool) (finalUrl : String) (t l sct : Option String) :
    (sortedDedup (homeIds ++ listIds) ≠ [] → btkMetaGet meta "last_id" = 0 →
      fetch_btk_listings_fallback homeIds listIds probe meta =
        ⟨btkMetaSet meta "last_id" (maxIntList (sortedDedup (homeIds ++ listIds))), [], []⟩) ∧
    (0 < btkMetaGet meta "last_id" →
      btkMetaGet meta "last_id" < maxIntList (sortedDedup (homeIds ++ listIds)) →
      (fetch_btk_listings_fallback homeIds listIds probe meta).probed =
        (intRangeIncl (btkMetaGet meta "last_id" + 1)
          (maxIntList (sortedDedup (homeIds ++ listIds)))).take BTK_MAX_PROBE_PER_RUN ∧
      (fetch_btk_listings_fallback homeIds listIds probe meta).items =
        ((fetch_btk_listings_fallback homeIds listIds probe meta).probed).filterMap
          (btkProbeFound probe) ∧
      (∀ i ∈ (fetch_btk_listings_fallback homeIds listIds probe meta).probed,
        i ≤ btkMetaGet (fetch_btk_listings_fallback homeIds listIds probe meta).meta "last_id") ∧
      btkMetaGet meta "last_id" ≤
        btkMetaGet (fetch_btk_listings_fallback homeIds listIds probe meta).meta "last_id") ∧
    fetch_btk_detail_by_id (ProbeResult.http 404 okFlag finalUrl t l sct) = Except.ok none := by
  refine ⟨?_, ?_, ?_⟩
  · intro hne h0
    simp only [fetch_btk_listings_fallback]
    rw [if_neg hne, if_pos h0]
  · intro hpos hlt
    have hne : sortedDedup (homeIds ++ listIds) ≠ [] := by
      intro h0
      rw [h0] at hlt
      simp only [maxIntList] at hlt
      omega
    have heq : fetch_btk_listings_fallback homeIds listIds probe meta =
        ⟨btkMetaSet meta "last_id"
          (((intRangeIncl (btkMetaGet meta "last_id" + 1)
              (maxIntList (sortedDedup (homeIds ++ listIds)))).take
            BTK_MAX_PROBE_PER_RUN).foldl (btkProbeStep probe) ([], btkMetaGet meta "last_id")).2,
         (((intRangeIncl (btkMetaGet meta "last_id" + 1)
              (maxIntList (sortedDedup (homeIds ++ listIds)))).take
            BTK_MAX_PROBE_PER_RUN).foldl (btkProbeStep probe) ([], btkMetaGet meta "last_id")).1,
         (intRangeIncl (btkMetaGet meta "last_id" + 1)
            (maxIntList (sortedDedup (homeIds ++ listIds)))).take BTK_MAX_PROBE_PER_RUN⟩ := by
      simp only [fetch_btk_listings_fallback]
      rw [if_neg hne, if_neg (by omega), if_neg (by omega)]
    rw [heq]
    refine ⟨rfl, ?_, ?_, ?_⟩
    · exact btkFold_items probe _ [] _
    · intro i hi
      rw [btkMetaGet_btkMetaSet_self]
      exact btkFold_mem_le probe _ _ i hi
    · rw [btkMetaGet_btkMetaSet_self]
      exact btkFold_snd_le probe _ ([], btkMetaGet meta "last_id")
  · unfold fetch_btk_detail_by_id
    dsimp only
    rw [if_pos (by simp)]

/-- Witness for C7 at the spec's scenario: first run discovering max 500
records 500 and yields nothing; second run discovering 505 probes
exactly IDs 501 through 505 (here every probe 404s). -/
theorem claim_C7_witness :
    fetch_btk_listings_fallback [500] [] (fun _ => ProbeResult.exn) [] =
      ⟨[("last_id", 500)], [], []⟩ ∧
    (fetch_btk_listings_fallback [505] []
        (fun _ => ProbeResult.http 404 false "" none none none) [("last_id", 500)]).probed =
      [501, 502, 503, 504, 505] := by
  have h1 := (claim_C7 [500] [] (fun _ => ProbeResult.exn) [] false "" none none none).1
    (by decide) (by decide)
  have h2 := ((claim_C7 [505] [] (fun _ => ProbeResult.http 404 false "" none none none)
    [("last_id", 500)] false "" none none none).2.1 (by decide) (by decide)).1
  constructor
  · rw [h1]
    decide
  · rw [h2]
    decide
